import Mathlib

/-!
Shallow embedding of the ZetaSQL anonymization rewriter
(src/zetasql/analyzer/anonymization_rewriter.cc) and proofs about it.

The embedding models the resolved AST fragments the rewriter manipulates
(types, values, columns, expressions, scans), the uid-state tracker, the
inner and outer aggregate-call translators, the join validation and uid
selection logic, the cross-partition sample scan insertion, and the
top-level orchestrator.  External collaborators (the type system, the
function resolver, the catalog) are modelled at their interface, following
the specification of those interfaces; everything else is translated from
the source.
-/

set_option maxHeartbeats 1000000

/-- Types of the resolved AST.  The type system itself is an external
collaborator; we model the kinds the rewriter inspects, with structural
fields for struct and proto types used by value-table field paths and by
the contribution-bounds checks. -/
inductive RType where
  | int64
  | uint64
  | numeric
  | double
  | string_
  | bool_
  | json
  | bytes
  | structT (fields : List (String × RType))
  | protoT (messageName : String) (fields : List (String × RType))
deriving Repr

mutual

/-- Structural type equality, mirroring Type::Equals on the kinds we model. -/
def RType.beq : RType → RType → Bool
  | .int64, .int64 => true
  | .uint64, .uint64 => true
  | .numeric, .numeric => true
  | .double, .double => true
  | .string_, .string_ => true
  | .bool_, .bool_ => true
  | .json, .json => true
  | .bytes, .bytes => true
  | .structT fs, .structT gs => RType.beqFields fs gs
  | .protoT n fs, .protoT m gs => n == m && RType.beqFields fs gs
  | _, _ => false

/-- Pointwise equality of struct or proto field lists. -/
def RType.beqFields : List (String × RType) → List (String × RType) → Bool
  | [], [] => true
  | (a, t) :: r, (b, u) :: s => a == b && RType.beq t u && RType.beqFields r s
  | _, _ => false

end

/-- Modelled from the spec: Type::SupportsGrouping is part of the external
type system; proto and json values cannot be grouped, scalar kinds can. -/
def RType.supportsGrouping : RType → Bool
  | .protoT _ _ => false
  | .json => false
  | _ => true

/-- Modelled from the spec: Type::SupportsEquality is part of the external
type system; proto and json values do not support equality comparison. -/
def RType.supportsEquality : RType → Bool
  | .protoT _ _ => false
  | .json => false
  | _ => true

/-- Type::IsInt64. -/
def RType.isInt64 : RType → Bool
  | .int64 => true
  | _ => false

/-- Type::IsStruct. -/
def RType.isStruct : RType → Bool
  | .structT _ => true
  | _ => false

/-- Values of the resolved AST (the Value class is external; we model the
operations the rewriter performs on literal values). -/
inductive RValue where
  | nullV (t : RType)
  | int64V (v : Int)
  | uint64V (v : Int)
  | numericV (v : Int)
  | doubleV (v : Int)
  | stringV (s : String)
  | boolV (b : Bool)
  | structV (fields : List RValue)
  | invalidV
deriving Repr

/-- Value::is_null. -/
def RValue.isNull : RValue → Bool
  | .nullV _ => true
  | _ => false

/-- Value::is_valid. -/
def RValue.isValid : RValue → Bool
  | .invalidV => false
  | _ => true

/-- Value::num_fields of a struct value. -/
def RValue.numFields : RValue → Nat
  | .structV fs => fs.length
  | _ => 0

/-- Value::field of a struct value. -/
def RValue.field (v : RValue) (i : Nat) : RValue :=
  match v with
  | .structV fs => (fs.get? i).getD .invalidV
  | _ => .invalidV

/-- Value equality between the integer-kinded values produced by
ToIntValueOrInvalid and a literal value of the same type. -/
def RValue.intEquals : RValue → RValue → Bool
  | .int64V a, .int64V b => a == b
  | .uint64V a, .uint64V b => a == b
  | .numericV a, .numericV b => a == b
  | _, _ => false

/-- Value::LessThan restricted to the integer-kinded values compared by the
rewriter. -/
def RValue.intLessThan : RValue → RValue → Bool
  | .int64V a, .int64V b => a < b
  | .uint64V a, .uint64V b => a < b
  | .numericV a, .numericV b => a < b
  | _, _ => false

/-- ToIntValueOrInvalid: converts an int64 to a Value of the given type,
invalid unless the type is one of INT64, UINT64, NUMERIC. -/
def toIntValueOrInvalid (t : RType) (value : Int) : RValue :=
  match t with
  | .int64 => .int64V value
  | .uint64 => .uint64V value
  | .numeric => .numericV value
  | _ => .invalidV

/-- A ResolvedColumn: identity is the column id; table name, column name and
type ride along.  Column ids allocated by the factory are positive. -/
structure RColumn where
  id : Int
  tableName : String
  name : String
  type : RType
deriving Repr

/-- ResolvedColumn equality (operator==) compares column ids. -/
def RColumn.sameAs (a b : RColumn) : Bool := a.id == b.id

/-- The ColumnFactory: issues fresh columns with strictly increasing ids. -/
structure ColumnFactory where
  maxColId : Int
deriving Repr

/-- ColumnFactory::MakeCol. -/
def ColumnFactory.makeCol (cf : ColumnFactory) (table name : String) (t : RType) :
    RColumn × ColumnFactory :=
  (⟨cf.maxColId + 1, table, name, t⟩, ⟨cf.maxColId + 1⟩)

/-- The builtin function signature ids the rewriter dispatches on
(FunctionSignatureId is generated from the catalog proto, external to the
rewriter; constructors here stand for the enumerators it uses). -/
inductive FunctionSignatureId where
  | FN_ANON_COUNT_STAR
  | FN_ANON_COUNT_STAR_WITH_REPORT_JSON
  | FN_ANON_COUNT_STAR_WITH_REPORT_PROTO
  | FN_ANON_COUNT
  | FN_ANON_COUNT_WITH_REPORT_JSON
  | FN_ANON_COUNT_WITH_REPORT_PROTO
  | FN_ANON_SUM_INT64
  | FN_ANON_SUM_UINT64
  | FN_ANON_SUM_NUMERIC
  | FN_ANON_SUM_WITH_REPORT_JSON_INT64
  | FN_ANON_SUM_WITH_REPORT_PROTO_INT64
  | FN_ANON_SUM_WITH_REPORT_JSON_UINT64
  | FN_ANON_SUM_WITH_REPORT_PROTO_UINT64
  | FN_ANON_VAR_POP_DOUBLE
  | FN_ANON_STDDEV_POP_DOUBLE
  | FN_ANON_PERCENTILE_CONT_DOUBLE
  | FN_ANON_QUANTILES_DOUBLE
  | FN_ANON_QUANTILES_DOUBLE_WITH_REPORT_JSON
  | FN_ANON_QUANTILES_DOUBLE_WITH_REPORT_PROTO
  | FN_DIFFERENTIAL_PRIVACY_COUNT
  | FN_DIFFERENTIAL_PRIVACY_COUNT_STAR
  | FN_DIFFERENTIAL_PRIVACY_COUNT_REPORT_JSON
  | FN_DIFFERENTIAL_PRIVACY_COUNT_REPORT_PROTO
  | FN_DIFFERENTIAL_PRIVACY_COUNT_STAR_REPORT_JSON
  | FN_DIFFERENTIAL_PRIVACY_COUNT_STAR_REPORT_PROTO
  | FN_DIFFERENTIAL_PRIVACY_SUM_INT64
  | FN_DIFFERENTIAL_PRIVACY_SUM_UINT64
  | FN_DIFFERENTIAL_PRIVACY_SUM_NUMERIC
  | FN_DIFFERENTIAL_PRIVACY_SUM_REPORT_JSON_INT64
  | FN_DIFFERENTIAL_PRIVACY_SUM_REPORT_JSON_UINT64
  | FN_DIFFERENTIAL_PRIVACY_SUM_REPORT_PROTO_INT64
  | FN_DIFFERENTIAL_PRIVACY_SUM_REPORT_PROTO_UINT64
  | FN_DIFFERENTIAL_PRIVACY_VAR_POP_DOUBLE
  | FN_DIFFERENTIAL_PRIVACY_STDDEV_POP_DOUBLE
  | FN_DIFFERENTIAL_PRIVACY_PERCENTILE_CONT_DOUBLE
  | FN_DIFFERENTIAL_PRIVACY_QUANTILES_DOUBLE
  | FN_DIFFERENTIAL_PRIVACY_QUANTILES_DOUBLE_REPORT_JSON
  | FN_DIFFERENTIAL_PRIVACY_QUANTILES_DOUBLE_REPORT_PROTO
  | FN_AND
  | FN_EQUAL
  | FN_COALESCE
  | FN_RAND
  | FN_JSON_QUERY_JSON
  | FN_JSON_TO_INT64
  | otherId (n : Nat)
deriving DecidableEq, Repr

/-- The ZetaSQL builtin function group name. -/
def kZetaSQLFunctionGroupName : String := "ZetaSQL"

/-- Identity of a scalar function as seen by the rewriter: its catalog
group, signature id, and whether it is a scalar ZetaSQL builtin. -/
structure FnInfo where
  name : String
  isScalar : Bool
  isZetaSQLBuiltin : Bool
  contextId : FunctionSignatureId
deriving Repr

/-- One signature argument of an aggregate function, as consulted by the
outer rewriter when forwarding named-only arguments. -/
structure SigArg where
  argumentName : String
  namedOnly : Bool
deriving Repr

/-- Identity of an aggregate function call as seen by the rewriter.  The
function object itself (AnonFunction) is an external catalog entity; we
carry the fields the rewriter reads from it.  partialName is the result of
AnonFunction::GetPartialAggregateName; partialType and outerType are the
types the external resolver assigns to the per-user and cross-user calls it
is asked to build (resolve_call is an external collaborator per the spec). -/
structure AggFnInfo where
  name : String
  group : String
  contextId : FunctionSignatureId
  isAnonFunction : Bool
  partialName : String
  partialType : RType
  outerType : RType
  sigArgs : List SigArg
deriving Repr

/-- ResolvedNonScalarFunctionCallBaseEnums null handling modifier. -/
inductive NullHandlingMod where
  | defaultNullHandling
  | ignoreNulls
deriving DecidableEq, Repr

/-- Resolved expressions.  Aggregate function call argument slots are
Option because the outer rewriter transiently stores a null placeholder in
the argument vector before overwriting it with the intermediate-column
reference. -/
inductive RExpr where
  | literal (t : RType) (v : RValue)
  | colRef (c : RColumn)
  | getStructField (t : RType) (input : RExpr) (idx : Nat)
  | getProtoField (t : RType) (input : RExpr) (fieldName : String)
  | funcCall (t : RType) (fn : FnInfo) (args : List RExpr)
  | aggCall (t : RType) (fn : AggFnInfo) (args : List (Option RExpr))
      (nullHandling : NullHandlingMod) (orderByItems : List RColumn)
      (limit : Option RExpr)
deriving Repr

/-- ResolvedExpr::type. -/
def RExpr.typeOf : RExpr → RType
  | .literal t _ => t
  | .colRef c => c.type
  | .getStructField t _ _ => t
  | .getProtoField t _ _ => t
  | .funcCall t _ _ => t
  | .aggCall t _ _ _ _ _ => t

/-- A ResolvedComputedColumn: binds an output column to a defining
expression. -/
structure ComputedColumn where
  column : RColumn
  expr : RExpr
deriving Repr

/-- A ResolvedOption (name plus resolved value expression). -/
structure ROption where
  qualifier : String
  name : String
  value : RExpr
deriving Repr

/-- MakeColRef. -/
def makeColRef (c : RColumn) : RExpr := .colRef c

/-- IsInternalAlias (from the external strings library): internal aliases
begin with a dollar sign. -/
def isInternalAlias (name : String) : Bool := name.startsWith "$"

/-- Case-insensitive string equality (zetasql_base::CaseEqual). -/
def caseEqual (a b : String) : Bool := a.toLower == b.toLower

/-- Errors raised by the rewriter.  User errors carry the data that feeds
their message; internal errors correspond to ZETASQL_RET_CHECK failures.
outOfFuel is a modeling artifact of the bounded recursion used for the
lazily rewritten WITH entries (the source recursion terminates because
entry references are acyclic). -/
inductive RewriteError where
  | unsupportedFunctionInSelectList (fnName : String)
  | uidColumnNotGroupable
  | joinUidTypeMismatch
  | joinUidTypeNoEquality
  | joinMissingUidPredicate (suggestion : String)
  | joinPredicateLacksUid (suggestion : String)
  | leftJoinMissingUserData
  | rightJoinMissingUserData
  | fullJoinMissingUserData
  | subqueryMissingUidProjection (uidDisplay : String)
  | setOperationUidPresenceMismatch (queryNumber : Nat)
  | setOperationUidPositionMismatch (queryNumber : Nat)
  | unsupportedScanKind (kindName : String)
  | invalidMaxGroupsContributed (errorPrefix : String)
  | privacyUnitColumnSetTwice
  | unsupportedPrivacyUnitColumnDef
  | privacyUnitColumnOverridesTable (uidDisplay : String)
  | missingPrivacyUnitColumn
  | valueTableUidFieldNotFound (uidName : String)
  | internalError (what : String)
  | outOfFuel
deriving DecidableEq, Repr

/-- Join types of a ResolvedJoinScan. -/
inductive JoinType where
  | inner
  | left
  | right
  | full
deriving DecidableEq, Repr

/-- Set operation types of a ResolvedSetOperationScan. -/
inductive SetOpType where
  | unionAll
  | unionDistinct
  | intersectAll
  | intersectDistinct
  | exceptAll
  | exceptDistinct
deriving DecidableEq, Repr

/-- SetOperationTypeToString. -/
def setOperationTypeToString : SetOpType → String
  | .unionAll => "UNION ALL"
  | .unionDistinct => "UNION DISTINCT"
  | .intersectAll => "INTERSECT ALL"
  | .intersectDistinct => "INTERSECT DISTINCT"
  | .exceptAll => "EXCEPT ALL"
  | .exceptDistinct => "EXCEPT DISTINCT"

/-- The ResolvedSampleScan row-count unit used by the rewriter. -/
inductive SampleUnit where
  | rows
deriving DecidableEq, Repr

/-- How the privacy unit is attached to a catalog table: either a physical
column (by table column index) or a field path inside a value table row. -/
inductive UserIdInfo where
  | physical (tableColIndex : Nat)
  | valuePath (path : List String)
deriving Repr

/-- A catalog column of a table. -/
structure RTableColumn where
  name : String
  type : RType
deriving Repr

/-- A catalog table; anonInfo is present iff the table supports
anonymization (Table::SupportsAnonymization). -/
structure RTable where
  name : String
  columns : List RTableColumn
  anonInfo : Option UserIdInfo
deriving Repr

/-- One input item of a ResolvedSetOperationScan. -/
structure SetOpItemData where
  outputColumnList : List RColumn
deriving Repr

/-- One WITH entry of a ResolvedWithScan. -/
structure WithEntryData where
  withQueryName : String
deriving Repr

/-- Resolved scans.  Each constructor carries the node fields the rewriter
reads or rebuilds.  TVF scans and the scan kinds the per-user rewriter
rejects are represented by analyticScan standing for the whole rejected
family. -/
inductive Scan where
  | tableScan (columnList : List RColumn) (table : RTable)
      (columnIndexList : List Nat) (tableAlias : String)
  | projectScan (columnList : List RColumn) (exprList : List ComputedColumn)
      (input : Scan)
  | filterScan (columnList : List RColumn) (input : Scan) (filterExpr : RExpr)
  | joinScan (columnList : List RColumn) (joinType : JoinType)
      (left : Scan) (right : Scan) (joinExpr : Option RExpr)
  | aggregateScan (columnList : List RColumn) (input : Scan)
      (groupByList : List ComputedColumn) (aggregateList : List ComputedColumn)
  | setOperationScan (columnList : List RColumn) (opType : SetOpType)
      (inputItemList : List (SetOpItemData × Scan))
  | orderByScan (columnList : List RColumn) (input : Scan)
  | limitOffsetScan (columnList : List RColumn) (input : Scan)
  | arrayScan (columnList : List RColumn) (input : Scan)
  | singleRowScan (columnList : List RColumn)
  | sampleScan (columnList : List RColumn) (input : Scan) (method : String)
      (size : RExpr) (unit : SampleUnit) (repeatableArgument : Option RExpr)
      (weightColumn : Option RColumn) (partitionByList : List RExpr)
  | withScan (columnList : List RColumn)
      (withEntryList : List (WithEntryData × Scan)) (query : Scan)
      (recursive : Bool)
  | withRefScan (columnList : List RColumn) (withQueryName : String)
  | analyticScan (columnList : List RColumn) (input : Scan)
  | anonAggregateScan (columnList : List RColumn) (input : Scan)
      (groupByList : List ComputedColumn) (aggregateList : List ComputedColumn)
      (kThresholdExpr : Option RExpr) (anonOptionList : List ROption)
  | dpAggregateScan (columnList : List RColumn) (input : Scan)
      (groupByList : List ComputedColumn) (aggregateList : List ComputedColumn)
      (groupSelectionThresholdExpr : Option RExpr) (optionList : List ROption)
deriving Repr

/-- ResolvedScan::column_list. -/
def Scan.columnList : Scan → List RColumn
  | .tableScan cols _ _ _ => cols
  | .projectScan cols _ _ => cols
  | .filterScan cols _ _ => cols
  | .joinScan cols _ _ _ _ => cols
  | .aggregateScan cols _ _ _ => cols
  | .setOperationScan cols _ _ => cols
  | .orderByScan cols _ => cols
  | .limitOffsetScan cols _ => cols
  | .arrayScan cols _ => cols
  | .singleRowScan cols => cols
  | .sampleScan cols _ _ _ _ _ _ _ => cols
  | .withScan cols _ _ _ => cols
  | .withRefScan cols _ => cols
  | .analyticScan cols _ => cols
  | .anonAggregateScan cols _ _ _ _ _ => cols
  | .dpAggregateScan cols _ _ _ _ _ => cols

/-- FieldPathExpressionToString: renders the field path of a uid expression
for error messages. -/
def fieldPathExpressionToString : RExpr → List String
  | .getProtoField _ input fieldName => fieldPathExpressionToString input ++ [fieldName]
  | .getStructField _ input idx =>
      (fieldPathExpressionToString input) ++
        [match input.typeOf with
         | .structT fields => ((fields.get? idx).map Prod.fst).getD "<INVALID>"
         | _ => "<INVALID>"]
  | .colRef c => if isInternalAlias c.name then [] else [c.name]
  | _ => ["<INVALID>"]

/-- Modelled from the spec: IsSameFieldPath (expr matching helpers, outside
src) is a structural equality check of two field-path expressions. -/
def isSameFieldPath : RExpr → RExpr → Bool
  | .colRef c1, .colRef c2 => c1.id == c2.id
  | .getStructField t1 e1 i1, .getStructField t2 e2 i2 =>
      RType.beq t1 t2 && i1 == i2 && isSameFieldPath e1 e2
  | .getProtoField t1 e1 f1, .getProtoField t2 e2 f2 =>
      RType.beq t1 t2 && f1 == f2 && isSameFieldPath e1 e2
  | _, _ => false

/-- UidColumnState: wraps the current $uid column during the per-user
rewrite, together with an optional alias for error messages and, for uids
derived from a value table, the field-path expression that extracts the
uid from the row value. -/
structure UidColumnState where
  column : Option RColumn
  aliasName : String
  valueTableUid : Option RExpr
deriving Repr

/-- The cleared uid state (UidColumnState::Clear / default construction). -/
def UidColumnState.cleared : UidColumnState :=
  { column := none, aliasName := "", valueTableUid := none }

/-- UidColumnState::SetColumn (single argument overload). -/
def UidColumnState.setColumn (st : UidColumnState) (c : RColumn) : UidColumnState :=
  { st with column := some c }

/-- UidColumnState::SetColumn with a new alias. -/
def UidColumnState.setColumnAlias (st : UidColumnState) (c : RColumn)
    (newAlias : String) : UidColumnState :=
  { st with column := some c, aliasName := newAlias }

/-- UidColumnState::InitFromValueTable. -/
def UidColumnState.initFromValueTable (projectedUseridColumn : ComputedColumn)
    (valueTableAlias : String) : UidColumnState :=
  { column := some projectedUseridColumn.column,
    aliasName := valueTableAlias,
    valueTableUid := some projectedUseridColumn.expr }

/-- UidColumnState::ToString: the alias-qualified display name of the uid
column for error messages. -/
def UidColumnState.toDisplayString (st : UidColumnState) : String :=
  let aliasPrefix := if st.aliasName.isEmpty then "" else st.aliasName ++ "."
  match st.column with
  | none => ""
  | some c =>
      if !isInternalAlias c.name then aliasPrefix ++ c.name
      else match st.valueTableUid with
        | some vtu =>
            aliasPrefix ++ String.intercalate "." (fieldPathExpressionToString vtu)
        | none => ""

/-- UidColumnState::MatchesPathExpression: true iff the argument expression
points to the same (optionally nested) value as this state. -/
def UidColumnState.matchesPathExpression (st : UidColumnState) (other : RExpr) :
    Bool :=
  match st.valueTableUid with
  | none =>
      match other with
      | .colRef c =>
          match st.column with
          | some u => c.id == u.id
          | none => false
      | _ => false
  | some vtu => isSameFieldPath other vtu

/-- UidColumnState::SubstituteUidComputedColumn: replaces computed columns
whose expression matches the current uid state with a plain reference to
the canonical uid column; the state is mutated as matches are found
(adopting the output column of the match and clearing the value-table
path), so the result carries the updated state. -/
def UidColumnState.substituteUidComputedColumn (st : UidColumnState)
    (exprList : List ComputedColumn) : List ComputedColumn × UidColumnState :=
  match st.valueTableUid with
  | none => (exprList, st)
  | some _ => substLoop st exprList
where
  /-- The mutation loop over the expression list. -/
  substLoop (st : UidColumnState) :
      List ComputedColumn → List ComputedColumn × UidColumnState
  | [] => ([], st)
  | cc :: rest =>
      if st.matchesPathExpression cc.expr then
        match st.column with
        | some canonical =>
            let cc' : ComputedColumn := ⟨cc.column, makeColRef canonical⟩
            let st' : UidColumnState :=
              { st with column := some cc'.column, valueTableUid := none }
            let (rest', stOut) := substLoop st' rest
            (cc' :: rest', stOut)
        | none =>
            let (rest', stOut) := substLoop st rest
            (cc :: rest', stOut)
      else
        let (rest', stOut) := substLoop st rest
        (cc :: rest', stOut)

/-- UidColumnState::ProjectIfMissing on a column list: append the uid
column if no listed column equals it. -/
def projectIfMissing (u : RColumn) (cols : List RColumn) : List RColumn :=
  if cols.any (fun c => c.sameAs u) then cols else cols ++ [u]

/-- FunctionReferencesUid: at least one argument of the call matches the
left uid state and at least one matches the right uid state. -/
def functionReferencesUid (args : List RExpr) (leftUid rightUid : UidColumnState) :
    Bool :=
  args.any (fun a => leftUid.matchesPathExpression a) &&
  args.any (fun a => rightUid.matchesPathExpression a)

/-- JoinExprIncludesUid: the join expression contains, at the top level or
nested arbitrarily deep inside AND calls, an EQUAL call that satisfies
FunctionReferencesUid. -/
def joinExprIncludesUid (joinExpr : RExpr) (leftUid rightUid : UidColumnState) :
    Bool :=
  match joinExpr with
  | .funcCall _ fn args =>
      if !fn.isScalar || !fn.isZetaSQLBuiltin then false
      else
        match fn.contextId with
        | .FN_AND => args.attach.any (fun a => joinExprIncludesUid a.1 leftUid rightUid)
        | .FN_EQUAL => functionReferencesUid args leftUid rightUid
        | _ => false
  | _ => false
termination_by sizeOf joinExpr
decreasing_by
  simp_wf
  have := List.sizeOf_lt_of_mem a.2
  omega

/-- FormatJoinUidError: renders the suggested join predicate fragment,
using full table names as uid aliases when the two tables differ, the uid
column names coincide, and the query specifies no alias.  The result is
empty when either uid column has an internal alias.  The format string is
modelled as a prefix and suffix around the two rendered uid names joined
by an equals sign. -/
def formatJoinUidError (pre post : String) (column1 column2 : UidColumnState) :
    String :=
  match column1.column, column2.column with
  | some c1, some c2 =>
      if isInternalAlias c1.name || isInternalAlias c2.name then ""
      else
        let useTableNames :=
          c1.tableName != c2.tableName && c1.name == c2.name
        let col1 :=
          if useTableNames && column1.aliasName.isEmpty then
            { column1 with aliasName := c1.tableName }
          else column1
        let col2 :=
          if useTableNames && column2.aliasName.isEmpty then
            { column2 with aliasName := c2.tableName }
          else column2
        pre ++ col1.toDisplayString ++ "=" ++ col2.toDisplayString ++ post
  | _, _ => ""

/-- The validation performed by PerUserRewriterVisitor::VisitResolvedJoinScan
when both rewritten children carry a uid column (lc and rc): matching
types, equality support, and a join predicate that joins on the uid
columns.  The two predicate failures produce different user errors. -/
def validateBothPrivateJoin (joinExpr : Option RExpr)
    (leftUid rightUid : UidColumnState) (lc rc : RColumn) :
    Except RewriteError Unit :=
  if !RType.beq lc.type rc.type then .error .joinUidTypeMismatch
  else if !lc.type.supportsEquality then .error .joinUidTypeNoEquality
  else
    match joinExpr with
    | none =>
        .error (.joinMissingUidPredicate
          (formatJoinUidError ", add ON " "" leftUid rightUid))
    | some e =>
        if !joinExprIncludesUid e leftUid rightUid then
          .error (.joinPredicateLacksUid
            (formatJoinUidError ", add AND " " to the join ON expression"
              leftUid rightUid))
        else .ok ()

/-- The uid selection switch of VisitResolvedJoinScan: given the rewritten
join (columns, children, predicate) and the uid states of the two
children, pick the resulting uid column according to the join type,
projecting it if missing, and for FULL joins wrap the join in a projection
computing coalesce of the two uids into a freshly allocated column. -/
def joinUidSelection (cols : List RColumn) (jt : JoinType) (left right : Scan)
    (joinExpr : Option RExpr) (leftSt rightSt : UidColumnState)
    (cf : ColumnFactory) :
    Except RewriteError (Scan × UidColumnState × ColumnFactory) :=
  match jt with
  | .inner =>
      let st := if leftSt.column.isSome then leftSt else rightSt
      match st.column with
      | some u =>
          .ok (.joinScan (projectIfMissing u cols) jt left right joinExpr, st, cf)
      | none => .ok (.joinScan cols jt left right joinExpr, st, cf)
  | .left =>
      match leftSt.column with
      | none => .error .leftJoinMissingUserData
      | some u =>
          .ok (.joinScan (projectIfMissing u cols) jt left right joinExpr,
            leftSt, cf)
  | .right =>
      match rightSt.column with
      | none => .error .rightJoinMissingUserData
      | some u =>
          .ok (.joinScan (projectIfMissing u cols) jt left right joinExpr,
            rightSt, cf)
  | .full =>
      match leftSt.column, rightSt.column with
      | some lu, some ru =>
          let wrappedColumnList := cols
          let joinCols := cols ++ [lu, ru]
          let coalescedUidFunction : RExpr :=
            .funcCall lu.type
              ⟨"coalesce", true, true, .FN_COALESCE⟩
              [makeColRef lu, makeColRef ru]
          let (uidColumn, cf) :=
            cf.makeCol "$join" "$uid" coalescedUidFunction.typeOf
          let st : UidColumnState :=
            { column := some uidColumn, aliasName := "", valueTableUid := none }
          .ok (.projectScan (wrappedColumnList ++ [uidColumn])
              [⟨uidColumn, coalescedUidFunction⟩]
              (.joinScan joinCols jt left right joinExpr),
            st, cf)
      | _, _ => .error .fullJoinMissingUserData

/-- VisitResolvedJoinScan after both children have been rewritten: two
non-private children are copied unchanged with no uid; two private
children are validated for a uid-equating predicate first; then the uid
selection switch runs. -/
def visitJoinAfterChildren (cols : List RColumn) (jt : JoinType)
    (left right : Scan) (joinExpr : Option RExpr)
    (leftSt rightSt : UidColumnState) (cf : ColumnFactory) :
    Except RewriteError (Scan × UidColumnState × ColumnFactory) :=
  match leftSt.column, rightSt.column with
  | none, none =>
      .ok (.joinScan cols jt left right joinExpr, UidColumnState.cleared, cf)
  | some lc, some rc => do
      _ ← validateBothPrivateJoin joinExpr leftSt rightSt lc rc
      joinUidSelection cols jt left right joinExpr leftSt rightSt cf
  | _, _ => joinUidSelection cols jt left right joinExpr leftSt rightSt cf

/-- HasInnerAggregateArray: the differential privacy functions whose
internal implementation aggregates an array of per-user values. -/
def hasInnerAggregateArray : FunctionSignatureId → Bool
  | .FN_ANON_VAR_POP_DOUBLE => true
  | .FN_ANON_STDDEV_POP_DOUBLE => true
  | .FN_ANON_PERCENTILE_CONT_DOUBLE => true
  | .FN_ANON_QUANTILES_DOUBLE => true
  | .FN_ANON_QUANTILES_DOUBLE_WITH_REPORT_JSON => true
  | .FN_ANON_QUANTILES_DOUBLE_WITH_REPORT_PROTO => true
  | .FN_DIFFERENTIAL_PRIVACY_VAR_POP_DOUBLE => true
  | .FN_DIFFERENTIAL_PRIVACY_STDDEV_POP_DOUBLE => true
  | .FN_DIFFERENTIAL_PRIVACY_PERCENTILE_CONT_DOUBLE => true
  | .FN_DIFFERENTIAL_PRIVACY_QUANTILES_DOUBLE => true
  | .FN_DIFFERENTIAL_PRIVACY_QUANTILES_DOUBLE_REPORT_JSON => true
  | .FN_DIFFERENTIAL_PRIVACY_QUANTILES_DOUBLE_REPORT_PROTO => true
  | _ => false

/-- IsCountStarFunction. -/
def isCountStarFunction : FunctionSignatureId → Bool
  | .FN_ANON_COUNT_STAR => true
  | .FN_ANON_COUNT_STAR_WITH_REPORT_JSON => true
  | .FN_ANON_COUNT_STAR_WITH_REPORT_PROTO => true
  | .FN_DIFFERENTIAL_PRIVACY_COUNT_STAR => true
  | .FN_DIFFERENTIAL_PRIVACY_COUNT_STAR_REPORT_JSON => true
  | .FN_DIFFERENTIAL_PRIVACY_COUNT_STAR_REPORT_PROTO => true
  | _ => false

/-- The per-user array aggregation limit constant
(anonymization::kPerUserArrayAggLimit, declared in the external
anonymization utils header; the source comments document the value 5). -/
def kPerUserArrayAggLimit : Int := 5

/-- ResolveInnerAggregateFunctionCallForAnonFunction: resolve the plain
per-user counterpart of a privacy aggregate.  The external resolver call
is modelled by constructing the per-user aggregate call node directly from
the partial aggregate name the function object supplies.  The argument
vector is resized to one entry for ordinary functions (empty for count
star functions); array-aggregating functions additionally get an ORDER BY
item on the shared randomizing column, null-ignoring semantics and the
fixed limit. -/
def resolveInnerAggregateFunctionCallForAnonFunction (node : AggFnInfo)
    (arguments : List (Option RExpr)) (orderByColumn : Option RColumn)
    (cf : ColumnFactory) :
    Except RewriteError (RExpr × Option RColumn × ColumnFactory) :=
  if !node.isAnonFunction then
    .error (.unsupportedFunctionInSelectList node.name)
  else
    let arguments :=
      if node.group == kZetaSQLFunctionGroupName &&
          isCountStarFunction node.contextId then
        ([] : List (Option RExpr))
      else
        [arguments.head?.join]
    if node.group == kZetaSQLFunctionGroupName &&
        hasInnerAggregateArray node.contextId then
      let (orderByColumn, cf) :=
        match orderByColumn with
        | some c => (c, cf)
        | none => cf.makeCol "$orderby" "$orderbycol1" .double
      .ok (.aggCall node.partialType { node with name := node.partialName }
          arguments .ignoreNulls [orderByColumn]
          (some (.literal .int64 (.int64V kPerUserArrayAggLimit))),
        some orderByColumn, cf)
    else
      .ok (.aggCall node.partialType { node with name := node.partialName }
          arguments .defaultNullHandling [] none,
        orderByColumn, cf)

/-- State threaded through the inner aggregate list rewriter: the injected
column map, the shared order-by column, and the column factory. -/
structure InnerRewriteState where
  injectedColMap : List (RColumn × RColumn)
  orderByColumn : Option RColumn
  cf : ColumnFactory
deriving Repr

/-- Lookup in the injected column map (std::map keyed by column). -/
def lookupInjected (m : List (RColumn × RColumn)) (c : RColumn) :
    Option RColumn :=
  (m.find? (fun p => p.1.sameAs c)).map Prod.snd

/-- InnerAggregateListRewriterVisitor::VisitResolvedComputedColumn applied
to one aggregate list entry: rewrite the aggregate call to its per-user
counterpart, then replace the output column with a freshly allocated
intermediate column recorded in the injected column map. -/
def rewriteInnerAggregateColumn (cc : ComputedColumn) (st : InnerRewriteState) :
    Except RewriteError (ComputedColumn × InnerRewriteState) :=
  match cc.expr with
  | .aggCall _ fn args _ _ _ => do
      let (result, orderByColumn, cf) ←
        resolveInnerAggregateFunctionCallForAnonFunction fn args
          st.orderByColumn st.cf
      let oldColumn := cc.column
      let (injectedColumn, cf) :=
        cf.makeCol oldColumn.tableName (oldColumn.name ++ "_partial")
          result.typeOf
      .ok (⟨injectedColumn, result⟩,
        { injectedColMap := st.injectedColMap ++ [(oldColumn, injectedColumn)],
          orderByColumn := orderByColumn, cf := cf })
  | _ => .error (.internalError "aggregate list entry is not an aggregate call")

/-- InnerAggregateListRewriterVisitor::RewriteAggregateColumns. -/
def rewriteInnerAggregateList (aggregateList : List ComputedColumn)
    (st : InnerRewriteState) :
    Except RewriteError (List ComputedColumn × InnerRewriteState) :=
  match aggregateList with
  | [] => .ok ([], st)
  | cc :: rest => do
      let (cc', st) ← rewriteInnerAggregateColumn cc st
      let (rest', st) ← rewriteInnerAggregateList rest st
      .ok (cc' :: rest', st)

/-- InnerAggregateListRewriterVisitor::VisitResolvedComputedColumn applied
to one group-by entry: the expression is copied verbatim and the output
column is replaced with a fresh intermediate column recorded in the map. -/
def rewriteInnerGroupByColumn (cc : ComputedColumn) (st : InnerRewriteState) :
    ComputedColumn × InnerRewriteState :=
  let oldColumn := cc.column
  let (injectedColumn, cf) :=
    st.cf.makeCol oldColumn.tableName (oldColumn.name ++ "_partial")
      cc.expr.typeOf
  (⟨injectedColumn, cc.expr⟩,
    { st with
      injectedColMap := st.injectedColMap ++ [(oldColumn, injectedColumn)],
      cf := cf })

/-- InnerAggregateListRewriterVisitor::RewriteGroupByColumns. -/
def rewriteInnerGroupByList (groupByList : List ComputedColumn)
    (st : InnerRewriteState) : List ComputedColumn × InnerRewriteState :=
  match groupByList with
  | [] => ([], st)
  | cc :: rest =>
      let (cc', st) := rewriteInnerGroupByColumn cc st
      let (rest', st) := rewriteInnerGroupByList rest st
      (cc' :: rest', st)

/-- IsLiteralWithValueEqualTo: true if the expression is a non-null literal
equal to the expected value; none models the internal error raised when a
literal of a non-integer type is passed. -/
def isLiteralWithValueEqualTo (expr : RExpr) (expectedValue : Int) :
    Option Bool :=
  match expr with
  | .literal t v =>
      let expected := toIntValueOrInvalid t expectedValue
      if !expected.isValid then none
      else some (!v.isNull && expected.intEquals v)
  | _ => some false

/-- IsLiteralWithValueGreaterThanOrEqualTo. -/
def isLiteralWithValueGreaterThanOrEqualTo (expr : RExpr) (lowerBound : Int) :
    Option Bool :=
  match expr with
  | .literal t v =>
      let lower := toIntValueOrInvalid t lowerBound
      if !lower.isValid then none
      else some (!v.isNull && (lower.intLessThan v || lower.intEquals v))
  | _ => some false

/-- IsNonNullLiteral. -/
def isNonNullLiteral : RExpr → Bool
  | .literal _ v => !v.isNull
  | _ => false

/-- IsUidColumn: the expression is a column reference to the column with
the given id. -/
def isUidColumn (expr : RExpr) (uidColumnId : Int) : Bool :=
  match expr with
  | .colRef c => c.id == uidColumnId
  | _ => false

/-- The check_dp_contribution_bounds lambda of IsCountUniqueUsers: the
expression is a non-null two-field struct literal whose fields equal 0 and
1 in the respective field types. -/
def checkDpContributionBounds (expr : RExpr) : Bool :=
  match expr with
  | .literal t v =>
      match t with
      | .structT fields =>
          if fields.length != 2 then false
          else
            let expectedLowerBound :=
              toIntValueOrInvalid (((fields.get? 0).map Prod.snd).getD .int64) 0
            let expectedUpperBound :=
              toIntValueOrInvalid (((fields.get? 1).map Prod.snd).getD .int64) 1
            !v.isNull && v.numFields == 2 &&
              expectedLowerBound.isValid &&
              expectedLowerBound.intEquals (v.field 0) &&
              expectedUpperBound.isValid &&
              expectedUpperBound.intEquals (v.field 1)
      | _ => false
  | _ => false

/-- Dereference the i-th argument slot of an aggregate call argument
vector. -/
def argAt (args : List (Option RExpr)) (i : Nat) : Option RExpr :=
  (args.get? i).join

/-- IsCountUniqueUsers: the original aggregate call matches one of the
canonical counts-distinct-privacy-units shapes, clamped to the unit
interval per user, in legacy clamped or structured contribution-bounds
form. -/
def isCountUniqueUsers (fn : AggFnInfo) (args : List (Option RExpr))
    (uidColumnId : Int) : Bool :=
  let litEq := fun (o : Option RExpr) (v : Int) =>
    match o with
    | some e => (isLiteralWithValueEqualTo e v).getD false
    | none => false
  let litGe := fun (o : Option RExpr) (v : Int) =>
    match o with
    | some e => (isLiteralWithValueGreaterThanOrEqualTo e v).getD false
    | none => false
  let nonNullLit := fun (o : Option RExpr) =>
    match o with
    | some e => isNonNullLiteral e
    | none => false
  let uidCol := fun (o : Option RExpr) =>
    match o with
    | some e => isUidColumn e uidColumnId
    | none => false
  let dpBounds := fun (o : Option RExpr) =>
    match o with
    | some e => checkDpContributionBounds e
    | none => false
  match fn.contextId with
  | .FN_ANON_COUNT_STAR =>
      args.length == 2 && litEq (argAt args 0) 0 && litEq (argAt args 1) 1
  | .FN_ANON_COUNT_STAR_WITH_REPORT_PROTO =>
      args.length == 2 && litEq (argAt args 0) 0 && litEq (argAt args 1) 1
  | .FN_ANON_COUNT_STAR_WITH_REPORT_JSON =>
      args.length == 2 && litEq (argAt args 0) 0 && litEq (argAt args 1) 1
  | .FN_ANON_COUNT =>
      args.length == 3 && (nonNullLit (argAt args 0) || uidCol (argAt args 0)) &&
        litEq (argAt args 1) 0 && litEq (argAt args 2) 1
  | .FN_ANON_COUNT_WITH_REPORT_PROTO =>
      args.length == 3 && (nonNullLit (argAt args 0) || uidCol (argAt args 0)) &&
        litEq (argAt args 1) 0 && litEq (argAt args 2) 1
  | .FN_ANON_COUNT_WITH_REPORT_JSON =>
      args.length == 3 && (nonNullLit (argAt args 0) || uidCol (argAt args 0)) &&
        litEq (argAt args 1) 0 && litEq (argAt args 2) 1
  | .FN_ANON_SUM_INT64 =>
      args.length == 3 && litGe (argAt args 0) 1 &&
        litEq (argAt args 1) 0 && litEq (argAt args 2) 1
  | .FN_ANON_SUM_WITH_REPORT_PROTO_INT64 =>
      args.length == 3 && litGe (argAt args 0) 1 &&
        litEq (argAt args 1) 0 && litEq (argAt args 2) 1
  | .FN_ANON_SUM_WITH_REPORT_JSON_INT64 =>
      args.length == 3 && litGe (argAt args 0) 1 &&
        litEq (argAt args 1) 0 && litEq (argAt args 2) 1
  | .FN_ANON_SUM_UINT64 =>
      args.length == 3 && litGe (argAt args 0) 1 &&
        litEq (argAt args 1) 0 && litEq (argAt args 2) 1
  | .FN_ANON_SUM_WITH_REPORT_PROTO_UINT64 =>
      args.length == 3 && litGe (argAt args 0) 1 &&
        litEq (argAt args 1) 0 && litEq (argAt args 2) 1
  | .FN_ANON_SUM_WITH_REPORT_JSON_UINT64 =>
      args.length == 3 && litGe (argAt args 0) 1 &&
        litEq (argAt args 1) 0 && litEq (argAt args 2) 1
  | .FN_ANON_SUM_NUMERIC =>
      args.length == 3 && litGe (argAt args 0) 1 &&
        litEq (argAt args 1) 0 && litEq (argAt args 2) 1
  | .FN_DIFFERENTIAL_PRIVACY_COUNT =>
      args.length == 2 && (nonNullLit (argAt args 0) || uidCol (argAt args 0)) &&
        dpBounds (argAt args 1)
  | .FN_DIFFERENTIAL_PRIVACY_COUNT_STAR =>
      args.length == 1 && dpBounds (argAt args 0)
  | .FN_DIFFERENTIAL_PRIVACY_SUM_INT64 =>
      args.length == 2 && litGe (argAt args 0) 1 && dpBounds (argAt args 1)
  | _ => false

/-- The result of ResolveOuterAggregateFunctionCallForAnonFunction: the
target function name the resolver is asked for, the final argument vector,
and the named arguments forwarded by position. -/
structure ResolvedOuterCall where
  target : String
  arguments : List (Option RExpr)
  namedArguments : List (String × Nat)
deriving Repr

/-- ResolveOuterAggregateFunctionCallForAnonFunction: resolve the
cross-user privacy aggregate.  COUNT-shaped builtins are retargeted to
their SUM-shaped equivalents, with a null placeholder inserted as first
argument for the count-star variants; the first argument slot is then
always overwritten with a reference to the intermediate per-user column.
Named-only signature arguments are forwarded by position in the default
branch; the differential privacy count branches forward their
report_format and contribution_bounds_per_group named arguments by
position explicitly. -/
def resolveOuterAggregateFunctionCallForAnonFunction (node : AggFnInfo)
    (targetColumn : RColumn) (arguments : List (Option RExpr)) :
    ResolvedOuterCall :=
  let init : String × List (Option RExpr) × List (String × Nat) :=
    if node.group == kZetaSQLFunctionGroupName then
      match node.contextId with
      | .FN_ANON_COUNT_STAR =>
          ("anon_sum", none :: arguments, [])
      | .FN_ANON_COUNT =>
          ("anon_sum", arguments, [])
      | .FN_ANON_COUNT_STAR_WITH_REPORT_JSON =>
          ("$anon_sum_with_report_json", none :: arguments, [])
      | .FN_ANON_COUNT_WITH_REPORT_JSON =>
          ("$anon_sum_with_report_json", arguments, [])
      | .FN_ANON_COUNT_STAR_WITH_REPORT_PROTO =>
          ("$anon_sum_with_report_proto", none :: arguments, [])
      | .FN_ANON_COUNT_WITH_REPORT_PROTO =>
          ("$anon_sum_with_report_proto", arguments, [])
      | .FN_DIFFERENTIAL_PRIVACY_COUNT_STAR =>
          ("$differential_privacy_sum", none :: arguments,
            [("contribution_bounds_per_group", 1)])
      | .FN_DIFFERENTIAL_PRIVACY_COUNT =>
          ("$differential_privacy_sum", arguments,
            [("contribution_bounds_per_group", 1)])
      | .FN_DIFFERENTIAL_PRIVACY_COUNT_STAR_REPORT_JSON =>
          ("$differential_privacy_sum", none :: arguments,
            [("report_format", 1), ("contribution_bounds_per_group", 2)])
      | .FN_DIFFERENTIAL_PRIVACY_COUNT_STAR_REPORT_PROTO =>
          ("$differential_privacy_sum", none :: arguments,
            [("report_format", 1), ("contribution_bounds_per_group", 2)])
      | .FN_DIFFERENTIAL_PRIVACY_COUNT_REPORT_JSON =>
          ("$differential_privacy_sum", arguments,
            [("report_format", 1), ("contribution_bounds_per_group", 2)])
      | .FN_DIFFERENTIAL_PRIVACY_COUNT_REPORT_PROTO =>
          ("$differential_privacy_sum", arguments,
            [("report_format", 1), ("contribution_bounds_per_group", 2)])
      | _ =>
          (node.name, arguments,
            ((List.range arguments.length).filterMap (fun i =>
              match node.sigArgs.get? i with
              | some sa => if sa.namedOnly then some (sa.argumentName, i) else none
              | none => none)))
    else (node.name, arguments, [])
  { target := init.1,
    arguments := init.2.1.set 0 (some (makeColRef targetColumn)),
    namedArguments := init.2.2 }

/-- Rebuild the rewritten outer aggregate call as an expression node (the
named arguments live in the resolver call, not in the resolved call node
we embed). -/
def outerCallToExpr (fn : AggFnInfo) (rc : ResolvedOuterCall) : RExpr :=
  .aggCall fn.outerType { fn with name := rc.target } rc.arguments
    .defaultNullHandling [] none

/-- OuterAggregateListRewriterVisitor::RewriteAggregateColumns together
with the unique-users-count tracking: each entry's call is rewritten to
point at its intermediate column, and the first entry (in declaration
order) whose original call matches IsCountUniqueUsers is remembered while
a thresholding feature is enabled. -/
def rewriteOuterAggregateList (aggregateList : List ComputedColumn)
    (injectedColMap : List (RColumn × RColumn)) (thresholdingEnabled : Bool)
    (innerUidColumnId : Int) (uniqueUsersCountColumn : Option RColumn) :
    Except RewriteError (List ComputedColumn × Option RColumn) :=
  match aggregateList with
  | [] => .ok ([], uniqueUsersCountColumn)
  | cc :: rest =>
      match cc.expr with
      | .aggCall _ fn args _ _ _ =>
          match lookupInjected injectedColMap cc.column with
          | none => .error (.internalError "no injected column for aggregate")
          | some targetColumn =>
              let result :=
                resolveOuterAggregateFunctionCallForAnonFunction fn
                  targetColumn args
              let uniqueUsersCountColumn :=
                if thresholdingEnabled && uniqueUsersCountColumn.isNone &&
                    isCountUniqueUsers fn args innerUidColumnId then
                  some cc.column
                else uniqueUsersCountColumn
              match rewriteOuterAggregateList rest injectedColMap
                  thresholdingEnabled innerUidColumnId uniqueUsersCountColumn with
              | .ok (rest', uniqueOut) =>
                  .ok (⟨cc.column, outerCallToExpr fn result⟩ :: rest', uniqueOut)
              | .error e => .error e
      | _ => .error (.internalError "aggregate list entry is not an aggregate call")

/-- The struct branch of MakeGetFieldComputedColumn: walk the userid column
name path through nested struct types, building a chain of get-struct-field
expressions and allocating a projection column per step. -/
def makeGetFieldStructChain :
    List String → RExpr → RType → RColumn → ColumnFactory →
    Except RewriteError (RColumn × RExpr × ColumnFactory)
  | [], expr, _, col, cf => .ok (col, expr, cf)
  | fname :: rest, expr, t, _col, cf =>
      match t with
      | .structT fields =>
          match fields.findIdx? (fun p => p.1 == fname) with
          | none => .error (.internalError "struct field not found")
          | some idx =>
              if (fields.filter (fun p => p.1 == fname)).length != 1 then
                .error (.internalError "ambiguous struct field")
              else
                let ftype := ((fields.get? idx).map Prod.snd).getD .int64
                let expr' := RExpr.getStructField ftype expr idx
                let (col', cf) := cf.makeCol "$project" ("$" ++ fname) ftype
                makeGetFieldStructChain rest expr' ftype col' cf
      | _ => .error (.internalError "field path step is not a struct")

/-- The proto branch of MakeGetFieldComputedColumn: walk the userid column
name path through nested proto message types (field lookup ignores case);
a missing field is a user error. -/
def makeGetFieldProtoChain :
    List String → RExpr → RType → RColumn → ColumnFactory →
    Except RewriteError (RColumn × RExpr × ColumnFactory)
  | [], expr, _, col, cf => .ok (col, expr, cf)
  | fname :: rest, expr, t, _col, cf =>
      match t with
      | .protoT _ fields =>
          match fields.findIdx? (fun p => caseEqual p.1 fname) with
          | none => .error (.valueTableUidFieldNotFound fname)
          | some idx =>
              let ftype := ((fields.get? idx).map Prod.snd).getD .int64
              let expr' := RExpr.getProtoField ftype expr fname
              let (col', cf) := cf.makeCol "$project" ("$" ++ fname) ftype
              makeGetFieldProtoChain rest expr' ftype col' cf
      | _ => .error (.internalError "field path step is not a proto")

/-- MakeGetFieldComputedColumn: build the computed column extracting the
userid field path from a value table row column. -/
def makeGetFieldComputedColumn (path : List String) (valueColumn : RColumn)
    (cf : ColumnFactory) :
    Except RewriteError (ComputedColumn × ColumnFactory) := do
  let (col, expr, cf) ←
    match valueColumn.type with
    | .structT _ =>
        makeGetFieldStructChain path (makeColRef valueColumn) valueColumn.type
          valueColumn cf
    | .protoT _ _ =>
        makeGetFieldProtoChain path (makeColRef valueColumn) valueColumn.type
          valueColumn cf
    | _ => .error (.internalError "value table value is not struct or proto")
  .ok (⟨col, expr⟩, cf)

/-- ValidateUidColumnSupportsGrouping. -/
def validateUidColumnSupportsGrouping (st : UidColumnState) :
    Except RewriteError Unit :=
  match st.column with
  | some c =>
      if !c.type.supportsGrouping then .error .uidColumnNotGroupable else .ok ()
  | none => .ok ()

/-- The lazily-rewritten state of one WITH entry
(WithEntryRewriteState). -/
structure WithEntryState where
  name : String
  originalScan : Scan
  rewritten : Option Scan
  rewrittenUid : Option UidColumnState
deriving Repr

/-- State shared between nested per-user rewriter instances: the column
factory and the WITH entry rewrite states. -/
structure Shared where
  cf : ColumnFactory
  withEntries : List WithEntryState
deriving Repr

/-- PerUserRewriterVisitor::VisitResolvedTableScan: establish the uid
column from the table metadata, reusing a projected uid column, appending
the physical uid column, or synthesizing a value-table field extraction
wrapped in a projection. -/
def perUserVisitTableScan (cols : List RColumn) (table : RTable)
    (idxs : List Nat) (tableAlias : String) (sh : Shared) :
    Except RewriteError (Scan × UidColumnState × Shared) :=
  match table.anonInfo with
  | none => .ok (.tableScan cols table idxs tableAlias, .cleared, sh)
  | some (.physical tci) =>
      match (cols.zip idxs).find? (fun p => p.2 == tci) with
      | some p =>
          let st : UidColumnState :=
            { column := some p.1, aliasName := tableAlias, valueTableUid := none }
          do
            _ ← validateUidColumnSupportsGrouping st
            .ok (.tableScan cols table idxs tableAlias, st, sh)
      | none =>
          match table.columns.get? tci with
          | none => .error (.internalError "uid table column index out of range")
          | some tableCol =>
              let (uidCol, cf) :=
                sh.cf.makeCol table.name tableCol.name tableCol.type
              let st : UidColumnState :=
                { column := some uidCol, aliasName := tableAlias,
                  valueTableUid := none }
              do
                _ ← validateUidColumnSupportsGrouping st
                .ok (.tableScan (cols ++ [uidCol]) table (idxs ++ [tci])
                      tableAlias,
                  st, { sh with cf := cf })
  | some (.valuePath path) =>
      match table.columns.get? 0 with
      | none => .error (.internalError "value table has no columns")
      | some valueTableValueColumn =>
          if !(valueTableValueColumn.type.isStruct ||
               (match valueTableValueColumn.type with
                | .protoT _ _ => true
                | _ => false)) then
            .error (.internalError "value table value is not struct or proto")
          else do
            -- ProjectValueTableScanRowValueIfNeeded
            let (valueCol, cols, idxs, sh) ←
              match (cols.zip idxs).find? (fun p => p.2 == 0) with
              | some p => .ok (p.1, cols, idxs, sh)
              | none =>
                  let (vc, cf) :=
                    sh.cf.makeCol "$table_scan" "$value"
                      valueTableValueColumn.type
                  .ok (vc, cols ++ [vc], idxs ++ [0], { sh with cf := cf })
            let (projectedUseridColumn, cf) ←
              makeGetFieldComputedColumn path valueCol sh.cf
            let st := UidColumnState.initFromValueTable projectedUseridColumn
              tableAlias
            _ ← validateUidColumnSupportsGrouping st
            .ok (.projectScan (cols ++ [projectedUseridColumn.column])
                [projectedUseridColumn]
                (.tableScan cols table idxs tableAlias),
              st, { sh with cf := cf })

/-- Index of the uid column in an output column list; the length of the
list when absent (mirroring std::find returning the end iterator). -/
def uidIndexOrLen (cols : List RColumn) (u : Option RColumn) : Nat :=
  match u with
  | some uc =>
      match cols.findIdx? (fun c => c.sameAs uc) with
      | some i => i
      | none => cols.length
  | none => cols.length

/-- The uid presence check over set operation input items: all items must
agree with the first item on whether they carry a uid column. -/
def checkSetOpUidPresence (referenceUid : UidColumnState) :
    List UidColumnState → Nat → Except RewriteError Unit
  | [], _ => .ok ()
  | uid :: rest, i =>
      if referenceUid.column.isSome != uid.column.isSome then
        .error (.setOperationUidPresenceMismatch (i + 1))
      else checkSetOpUidPresence referenceUid rest (i + 1)

/-- The uid position check over set operation input items: every item must
project its uid column at the same offset as the first item. -/
def checkSetOpUidPositions (referenceUidIndex : Nat) :
    List (SetOpItemData × Scan) → List UidColumnState → Nat →
    Except RewriteError Unit
  | [], _, _ => .ok ()
  | item :: restItems, uids, i =>
      let uid := uids.head?.getD .cleared
      let uidIndex := uidIndexOrLen item.1.outputColumnList uid.column
      if referenceUidIndex != uidIndex then
        .error (.setOperationUidPositionMismatch (i + 1))
      else checkSetOpUidPositions referenceUidIndex restItems (uids.drop 1)
        (i + 1)

mutual

/-- PerUserRewriterVisitor: the recursive, kind-dispatched per-user
transform.  Returns the rewritten subtree together with the uid state it
established.  The fuel argument bounds the recursion (every recursive call
decrements it); the source recursion terminates because the tree is finite
and WITH entry references are acyclic. -/
def perUserRewrite : Nat → Scan → Shared →
    Except RewriteError (Scan × UidColumnState × Shared)
  | 0, _, _ => .error .outOfFuel
  | Nat.succ fuel, s, sh =>
      match s with
      | .tableScan cols table idxs tableAlias =>
          perUserVisitTableScan cols table idxs tableAlias sh
      | .projectScan cols exprs input => do
          let (input', uid, sh) ← perUserRewrite fuel input sh
          match uid.column with
          | none => .ok (.projectScan cols exprs input', uid, sh)
          | some _ =>
              let (exprs', uid) := uid.substituteUidComputedColumn exprs
              match uid.column with
              | some u =>
                  if cols.any (fun c => c.id == u.id) then
                    .ok (.projectScan cols exprs' input',
                      { uid with aliasName := "" }, sh)
                  else
                    .error (.subqueryMissingUidProjection uid.toDisplayString)
              | none =>
                  .error (.internalError "uid column cleared by substitution")
      | .filterScan cols input filterExpr => do
          let (input', uid, sh) ← perUserRewrite fuel input sh
          match uid.column with
          | none => .ok (.filterScan cols input' filterExpr, uid, sh)
          | some u =>
              .ok (.filterScan (projectIfMissing u cols) input' filterExpr,
                uid, sh)
      | .joinScan cols jt left right joinExpr => do
          let (left', leftSt, sh) ← perUserRewrite fuel left sh
          let (right', rightSt, sh) ← perUserRewrite fuel right sh
          let (scan, uid, cf) ←
            visitJoinAfterChildren cols jt left' right' joinExpr leftSt rightSt
              sh.cf
          .ok (scan, uid, { sh with cf := cf })
      | .aggregateScan cols input groupByList aggregateList => do
          let (input', uid, sh) ← perUserRewrite fuel input sh
          match uid.column with
          | none =>
              .ok (.aggregateScan cols input' groupByList aggregateList, uid, sh)
          | some _ =>
              let (groupByList', uid) :=
                uid.substituteUidComputedColumn groupByList
              match uid.column with
              | none =>
                  .error (.internalError "uid column cleared by substitution")
              | some u =>
                  let groupByUidCol :=
                    (groupByList'.find? (fun cc =>
                      match cc.expr with
                      | .colRef gc => gc.id == u.id
                      | _ => false)).map (fun cc => cc.column)
                  let uid' :=
                    match groupByUidCol with
                    | some gcol =>
                        let uid2 := uid.setColumn gcol
                        if cols.any (fun c => c.sameAs gcol) then
                          { uid2 with aliasName := "" }
                        else uid2
                    | none => uid
                  .ok (.aggregateScan cols input' groupByList' aggregateList,
                    uid', sh)
      | .setOperationScan cols opType items => do
          let (items', uids, sh) ← perUserRewriteSetOpItems fuel items sh
          match uids.head? with
          | none => .error (.internalError "set operation without inputs")
          | some referenceUid => do
              _ ← checkSetOpUidPresence referenceUid (uids.drop 1) 1
              match referenceUid.column with
              | none =>
                  .ok (.setOperationScan cols opType items',
                    UidColumnState.cleared, sh)
              | some _ =>
                  match items'.head? with
                  | none => .error (.internalError "set operation without inputs")
                  | some referenceItem =>
                      let referenceUidIndex :=
                        uidIndexOrLen referenceItem.1.outputColumnList
                          referenceUid.column
                      if referenceUidIndex ==
                          referenceItem.1.outputColumnList.length then
                        .error (.internalError "reference uid not projected")
                      else do
                        _ ← checkSetOpUidPositions referenceUidIndex
                          (items'.drop 1) (uids.drop 1) 1
                        match cols.get? referenceUidIndex with
                        | none =>
                            .error (.internalError
                              "set operation column list too short")
                        | some uidCol =>
                            .ok (.setOperationScan cols opType items',
                              UidColumnState.cleared.setColumn uidCol, sh)
      | .orderByScan cols input => do
          let (input', uid, sh) ← perUserRewrite fuel input sh
          match uid.column with
          | none => .ok (.orderByScan cols input', uid, sh)
          | some u => .ok (.orderByScan (projectIfMissing u cols) input', uid, sh)
      | .limitOffsetScan cols input => do
          let (input', uid, sh) ← perUserRewrite fuel input sh
          match uid.column with
          | none => .ok (.limitOffsetScan cols input', uid, sh)
          | some u =>
              .ok (.limitOffsetScan (projectIfMissing u cols) input', uid, sh)
      | .arrayScan cols input => do
          let (input', uid, sh) ← perUserRewrite fuel input sh
          match uid.column with
          | none => .ok (.arrayScan cols input', uid, sh)
          | some u => .ok (.arrayScan (projectIfMissing u cols) input', uid, sh)
      | .singleRowScan cols =>
          .ok (.singleRowScan cols, .cleared, sh)
      | .sampleScan cols input method size unit rep weight partitionBy => do
          let (input', uid, sh) ← perUserRewrite fuel input sh
          match uid.column with
          | none =>
              .ok (.sampleScan cols input' method size unit rep weight
                partitionBy, uid, sh)
          | some u =>
              .ok (.sampleScan (projectIfMissing u cols) input' method size unit
                rep weight partitionBy, uid, sh)
      | .withScan cols entries query recursive => do
          let (entries', sh) ← perUserRewriteWithEntries fuel entries sh
          let (query', uidQ, sh) ← perUserRewrite fuel query sh
          .ok (.withScan cols entries' query' recursive, uidQ, sh)
      | .withRefScan cols name => do
          match sh.withEntries.findIdx? (fun e => e.name == name) with
          | none => .error (.internalError "failed to find WITH entry")
          | some i =>
              let entry := (sh.withEntries.get? i).getD
                ⟨name, .singleRowScan [], none, none⟩
              let (entry, sh) ←
                match entry.rewritten with
                | some _ => .ok (entry, sh)
                | none => do
                    let (scan', uidE, sh) ←
                      perUserRewrite fuel entry.originalScan sh
                    let entry' :=
                      { entry with
                          rewritten := some scan'
                          rewrittenUid := some uidE }
                    .ok (entry',
                      { sh with
                        withEntries := sh.withEntries.set i entry' })
              match entry.rewrittenUid with
              | some uidSt =>
                  match uidSt.column, entry.rewritten with
                  | some uc, some rewrittenScan =>
                      let subCols := rewrittenScan.columnList
                      match (List.range (min subCols.length cols.length)).find?
                          (fun j => ((subCols.get? j).map RColumn.id) ==
                            some uc.id) with
                      | some j =>
                          match cols.get? j with
                          | some c =>
                              .ok (.withRefScan cols name,
                                UidColumnState.cleared.setColumnAlias c "", sh)
                          | none =>
                              .ok (.withRefScan cols name,
                                UidColumnState.cleared, sh)
                      | none =>
                          .ok (.withRefScan cols name, UidColumnState.cleared,
                            sh)
                  | _, _ =>
                      .ok (.withRefScan cols name, UidColumnState.cleared, sh)
              | none =>
                  .ok (.withRefScan cols name, UidColumnState.cleared, sh)
      | .analyticScan _ _ =>
          .error (.unsupportedScanKind "ResolvedAnalyticScan")
      | .anonAggregateScan cols input gb agg kThreshold opts => do
          let (input', uid, sh) ← perUserRewrite fuel input sh
          .ok (.anonAggregateScan cols input' gb agg kThreshold opts, uid, sh)
      | .dpAggregateScan cols input gb agg gst opts => do
          let (input', uid, sh) ← perUserRewrite fuel input sh
          .ok (.dpAggregateScan cols input' gb agg gst opts, uid, sh)

/-- Rewrite the input items of a set operation scan, each with a fresh
per-user rewriter instance, ret-checking that an established uid column is
included in the item output column list. -/
def perUserRewriteSetOpItems : Nat → List (SetOpItemData × Scan) → Shared →
    Except RewriteError
      (List (SetOpItemData × Scan) × List UidColumnState × Shared)
  | 0, _, _ => .error .outOfFuel
  | Nat.succ fuel, items, sh =>
      match items with
      | [] => .ok ([], [], sh)
      | (itemData, scan) :: rest => do
          let (scan', uid, sh) ← perUserRewrite fuel scan sh
          match uid.column with
          | some uc =>
              if !(itemData.outputColumnList.any (fun c => c.sameAs uc)) then
                .error (.internalError "uid not included in set operation output")
              else do
                let (rest', uids, sh) ← perUserRewriteSetOpItems fuel rest sh
                .ok ((itemData, scan') :: rest', uid :: uids, sh)
          | none => do
              let (rest', uids, sh) ← perUserRewriteSetOpItems fuel rest sh
              .ok ((itemData, scan') :: rest', uid :: uids, sh)

/-- Process the WITH entries of a WITH scan inside the per-user region
(VisitResolvedWithEntry): each entry subquery is rewritten and its uid
state is stashed in the shared entry list. -/
def perUserRewriteWithEntries : Nat → List (WithEntryData × Scan) → Shared →
    Except RewriteError (List (WithEntryData × Scan) × Shared)
  | 0, _, _ => .error .outOfFuel
  | Nat.succ fuel, entries, sh =>
      match entries with
      | [] => .ok ([], sh)
      | (ed, escan) :: rest => do
          let (escan', uidE, sh) ← perUserRewrite fuel escan sh
          let sh ←
            match sh.withEntries.findIdx? (fun e => e.name == ed.withQueryName)
              with
            | some i =>
                match (sh.withEntries.get? i).map WithEntryState.rewritten with
                | some (some _) =>
                    .error (.internalError "WITH entry already rewritten")
                | _ =>
                    match sh.withEntries.get? i with
                    | some entry =>
                        .ok { sh with
                          withEntries := sh.withEntries.set i
                            { entry with
                                rewritten := some escan'
                                rewrittenUid := some uidE } }
                    | none => .error (.internalError "WITH entry lookup")
            | none =>
                .ok { sh with
                  withEntries := sh.withEntries ++
                    [⟨ed.withQueryName, escan, some escan', some uidE⟩] }
          let (rest', sh) ← perUserRewriteWithEntries fuel rest sh
          .ok ((ed, escan') :: rest', sh)

end


/-- The int32 maximum bound used for max_groups_contributed validation. -/
def int32Max : Int := 2147483647

/-- ValidateMaxGroupsContributed: the option must be an int64 literal that
is NULL or between 1 and the int32 maximum. -/
def validateMaxGroupsContributed (opt : ROption) (errorPrefix : String) :
    Except RewriteError RValue :=
  match opt.value with
  | .literal t v =>
      if !t.isInt64 then .error (.invalidMaxGroupsContributed errorPrefix)
      else
        match v with
        | .nullV t' => .ok (.nullV t')
        | .int64V n =>
            if n < 1 || n > int32Max then
              .error (.invalidMaxGroupsContributed errorPrefix)
            else .ok (.int64V n)
        | _ => .error (.invalidMaxGroupsContributed errorPrefix)
  | _ => .error (.invalidMaxGroupsContributed errorPrefix)

/-- RewriterVisitor::AddCrossPartitionSampleScan: wrap the per-user scan in
a uid-partitioned reservoir sample bounding the number of groups one user
contributes to.  Explicit NULL disables sampling; an absent option adopts
the nonzero process default and records it into the forwarded option list. -/
def addCrossPartitionSampleScan (inputScan : Scan)
    (maxGroupsContributed : Option RValue)
    (defaultMaxGroupsContributedOptionName : String) (uidColumn : RColumn)
    (resolvedAnonymizationOptions : List ROption)
    (defaultAnonKappaValue : Int) :
    Except RewriteError (Scan × List ROption) :=
  match maxGroupsContributed with
  | some v =>
      if v.isNull then .ok (inputScan, resolvedAnonymizationOptions)
      else
        addSampleScanIfNeeded inputScan (some v) resolvedAnonymizationOptions
          defaultMaxGroupsContributedOptionName uidColumn defaultAnonKappaValue
  | none =>
      addSampleScanIfNeeded inputScan none resolvedAnonymizationOptions
        defaultMaxGroupsContributedOptionName uidColumn defaultAnonKappaValue
where
  /-- The body after the explicit-NULL early return: check the configured
  default, adopt it when the option is absent, and wrap in the sample scan
  when an effective value exists. -/
  addSampleScanIfNeeded (inputScan : Scan) (maxGroupsContributed : Option RValue)
      (opts : List ROption) (optName : String) (uidColumn : RColumn)
      (defaultValue : Int) : Except RewriteError (Scan × List ROption) :=
    if !(0 ≤ defaultValue && defaultValue < int32Max) then
      .error (.internalError "default max_groups_contributed out of range")
    else
      let (maxGroupsContributed, opts) :=
        if maxGroupsContributed.isNone && defaultValue > 0 then
          (some (RValue.int64V defaultValue),
            opts ++ [⟨"", optName, .literal .int64 (.int64V defaultValue)⟩])
        else (maxGroupsContributed, opts)
      match maxGroupsContributed with
      | some v =>
          if !v.isNull then
            .ok (.sampleScan inputScan.columnList inputScan "RESERVOIR"
                (.literal .int64 v) .rows none none [makeColRef uidColumn],
              opts)
          else .ok (inputScan, opts)
      | none => .ok (inputScan, opts)

/-- ChooseUidColumn: the options-provided privacy unit column expression
wins only when the per-user visitor found no table-provided uid; the
table-provided uid becomes a column reference; neither present is a user
error. -/
def chooseUidColumn (optionsUidColumn : Option RExpr)
    (perUserVisitorUidColumnState : UidColumnState) :
    Except RewriteError RExpr :=
  match optionsUidColumn with
  | some e =>
      match perUserVisitorUidColumnState.column with
      | some _ =>
          .error (.privacyUnitColumnOverridesTable
            perUserVisitorUidColumnState.toDisplayString)
      | none => .ok e
  | none =>
      match perUserVisitorUidColumnState.column with
      | some c => .ok (makeColRef c)
      | none => .error .missingPrivacyUnitColumn

/-- MakePerUserAggregateScan: assemble the per-user aggregate scan; the
column list is the aggregate output columns followed by the group-by
output columns. -/
def makePerUserAggregateScan (inputScan : Scan)
    (aggregateList groupByList : List ComputedColumn) : Scan :=
  .aggregateScan
    (aggregateList.map (fun cc => cc.column) ++
      groupByList.map (fun cc => cc.column))
    inputScan groupByList aggregateList

/-- The function identity of the rand() call resolved for the randomizing
order-by column. -/
def randFnInfo : FnInfo := ⟨"rand", true, true, .FN_RAND⟩

/-- RewritePerUserTransformResult. -/
structure RewritePerUserTransformResult where
  inputScan : Scan
  innerUidColumn : Option RColumn
  uidColumn : RColumn
  injectedColMap : List (RColumn × RColumn)
deriving Repr

/-- RewriterVisitor::RewritePerUserTransform: rewrite the input scan
through the per-user visitor, rewrite the aggregate and group-by lists to
their per-user forms, choose the uid column, append the uid grouping
entry, and wrap in the per-user aggregate scan (with the randomizing
projection underneath when an array-aggregating function was rewritten). -/
def rewritePerUserTransform (fuel : Nat) (inputScanNode : Scan)
    (groupByList aggregateList : List ComputedColumn)
    (optionsUidColumn : Option RExpr) (sh : Shared) :
    Except RewriteError (RewritePerUserTransformResult × Shared) := do
  let (inputScan, perUserUid, sh) ← perUserRewrite fuel inputScanNode sh
  let st0 : InnerRewriteState :=
    { injectedColMap := [], orderByColumn := none, cf := sh.cf }
  let (innerAggregateList, st1) ← rewriteInnerAggregateList aggregateList st0
  let (innerGroupByList, st2) := rewriteInnerGroupByList groupByList st1
  let innerUidColumnExpr ← chooseUidColumn optionsUidColumn perUserUid
  if !innerUidColumnExpr.typeOf.supportsGrouping then
    .error (.internalError "uid type does not support grouping")
  else
    let (uidColumn, cf) :=
      st2.cf.makeCol "$group_by" "$uid" innerUidColumnExpr.typeOf
    let innerGroupByList := innerGroupByList ++ [⟨uidColumn, innerUidColumnExpr⟩]
    let inputScan :=
      match st2.orderByColumn with
      | some orderByColumn =>
          Scan.projectScan (inputScan.columnList ++ [orderByColumn])
            [⟨orderByColumn, .funcCall .double randFnInfo []⟩] inputScan
      | none => inputScan
    let result : RewritePerUserTransformResult :=
      { inputScan :=
          makePerUserAggregateScan inputScan innerAggregateList
            innerGroupByList
        innerUidColumn := perUserUid.column
        uidColumn := uidColumn
        injectedColMap := st2.injectedColMap }
    .ok (result, { sh with cf := cf })

/-- The function identity used for the synthesized anon_sum threshold
call. -/
def anonSumThresholdFnInfo : AggFnInfo :=
  { name := "anon_sum"
    group := kZetaSQLFunctionGroupName
    contextId := .FN_ANON_SUM_INT64
    isAnonFunction := true
    partialName := "sum"
    partialType := .int64
    outerType := .int64
    sigArgs := [] }

/-- The function identity used for the synthesized differential privacy
sum threshold call. -/
def dpSumThresholdFnInfo : AggFnInfo :=
  { name := "$differential_privacy_sum"
    group := kZetaSQLFunctionGroupName
    contextId := .FN_DIFFERENTIAL_PRIVACY_SUM_INT64
    isAnonFunction := true
    partialName := "sum"
    partialType := .int64
    outerType := .int64
    sigArgs := [] }

/-- MakeGroupSelectionThresholdFunctionColumn for anonymized aggregate
scans: synthesize ANON_SUM of the literal 1 clamped between 0 and 1, bound
to a fresh $k_threshold_col. -/
def makeGroupSelectionThresholdAnon (cf : ColumnFactory) :
    ComputedColumn × ColumnFactory :=
  let call : RExpr :=
    .aggCall .int64 anonSumThresholdFnInfo
      [some (.literal .int64 (.int64V 1)), some (.literal .int64 (.int64V 0)),
        some (.literal .int64 (.int64V 1))]
      .defaultNullHandling [] none
  let (uidColumn, cf) := cf.makeCol "$anon" "$k_threshold_col" call.typeOf
  (⟨uidColumn, call⟩, cf)

/-- The struct type of the contribution bounds named argument. -/
def contributionBoundsStructType : RType :=
  .structT [("", .int64), ("", .int64)]

/-- MakeGroupSelectionThresholdFunctionColumn for differential privacy
aggregate scans: synthesize the dp sum of the literal 1 with contribution
bounds per group of zero to one, bound to a fresh
$group_selection_threshold_col. -/
def makeGroupSelectionThresholdDP (cf : ColumnFactory) :
    ComputedColumn × ColumnFactory :=
  let call : RExpr :=
    .aggCall .int64 dpSumThresholdFnInfo
      [some (.literal .int64 (.int64V 1)),
        some (.literal contributionBoundsStructType
          (.structV [.int64V 0, .int64V 1]))]
      .defaultNullHandling [] none
  let (uidColumn, cf) :=
    cf.makeCol "$differential_privacy" "$group_selection_threshold_col"
      call.typeOf
  (⟨uidColumn, call⟩, cf)

/-- The AnonOutputValue proto type. -/
def anonOutputValueType : RType := .protoT "zetasql.AnonOutputValue" []

/-- MakeExtractCountFromAnonOutputWithReportProto: extract value.int_value
from an AnonOutputWithReport proto column. -/
def makeExtractCountFromAnonOutputWithReportProto
    (uniqueUsersCountColumn : RColumn) : Except RewriteError RExpr :=
  match uniqueUsersCountColumn.type with
  | .protoT n _ =>
      if n != "zetasql.AnonOutputWithReport" then
        .error (.internalError "column is not an AnonOutputWithReport proto")
      else
        .ok (.getProtoField .int64
          (.getProtoField anonOutputValueType
            (makeColRef uniqueUsersCountColumn) "value")
          "int_value")
  | _ => .error (.internalError "column is not a proto")

/-- The json_query function identity. -/
def jsonQueryFnInfo : FnInfo := ⟨"json_query", true, true, .FN_JSON_QUERY_JSON⟩

/-- The json-to-int64 conversion function identity. -/
def jsonToInt64FnInfo : FnInfo := ⟨"int64", true, true, .FN_JSON_TO_INT64⟩

/-- MakeExtractCountFromAnonOutputWithReportJson: extract
int64(json_query(column, "$.result.value")). -/
def makeExtractCountFromAnonOutputWithReportJson
    (uniqueUsersCountColumn : RColumn) : RExpr :=
  .funcCall .int64 jsonToInt64FnInfo
    [.funcCall .json jsonQueryFnInfo
      [makeColRef uniqueUsersCountColumn,
        .literal .string_ (.stringV "$.result.value")]]

/-- Language feature configuration and the process-wide default
contribution bound consumed by the rewriter. -/
structure AnalyzerConfig where
  defaultAnonKappaValue : Int
  anonymizationThresholding : Bool
  differentialPrivacyThresholding : Bool
  jsonValueExtractionFunctions : Bool
deriving Repr

/-- The two private aggregate node kinds the template is instantiated
for. -/
inductive DPNodeKind where
  | anonymized
  | differentialPrivacy
deriving DecidableEq, Repr

/-- DPNodeSpecificData::IsMaxGroupsContributedOption. -/
def DPNodeKind.isMaxGroupsContributedOption (k : DPNodeKind) (name : String) :
    Bool :=
  match k with
  | .anonymized =>
      caseEqual name "kappa" || caseEqual name "max_groups_contributed"
  | .differentialPrivacy => caseEqual name "max_groups_contributed"

/-- DPNodeSpecificData::kDefaultMaxGroupsContributedOptionName. -/
def DPNodeKind.defaultMaxGroupsContributedOptionName (_ : DPNodeKind) :
    String :=
  "max_groups_contributed"

/-- DPNodeSpecificData::kMaxGroupsContributedErrorPrefix. -/
def DPNodeKind.maxGroupsContributedErrorPrefix : DPNodeKind → String
  | .anonymized => "Anonymization option MAX_GROUPS_CONTRIBUTED (aka KAPPA)"
  | .differentialPrivacy => "Option MAX_GROUPS_CONTRIBUTED"

/-- The option scanning loop of the aggregate scan template: find the
max_groups_contributed option, validating it and ret-checking that it
occurs at most once. -/
def extractMaxGroupsContributed (k : DPNodeKind) :
    List ROption → Option RValue →
    Except RewriteError (Option RValue)
  | [], acc => .ok acc
  | opt :: rest, acc =>
      if k.isMaxGroupsContributedOption opt.name then
        if acc.isSome then
          .error (.internalError "max_groups_contributed can only be set once")
        else
          match validateMaxGroupsContributed opt
            k.maxGroupsContributedErrorPrefix with
          | .ok v => extractMaxGroupsContributed k rest (some v)
          | .error e => .error e
      else extractMaxGroupsContributed k rest acc

/-- PrivacyUnitColumnValidator: the option value must be a column
reference possibly wrapped in get-struct-field and get-proto-field
accesses. -/
def isValidPrivacyUnitColumnExpr : RExpr → Bool
  | .colRef _ => true
  | .getStructField _ input _ => isValidPrivacyUnitColumnExpr input
  | .getProtoField _ input _ => isValidPrivacyUnitColumnExpr input
  | _ => false

/-- ExtractUidColumnFromOptions: for differential privacy nodes, find the
privacy_unit_column option, validating its shape and that it is set at
most once; anonymized nodes do not support the option. -/
def extractUidColumnFromOptions (k : DPNodeKind) (options : List ROption) :
    Except RewriteError (Option RExpr) :=
  match k with
  | .anonymized => .ok none
  | .differentialPrivacy => loop options none
where
  /-- The scan over the option list. -/
  loop : List ROption → Option RExpr → Except RewriteError (Option RExpr)
    | [], acc => .ok acc
    | opt :: rest, acc =>
        if !caseEqual opt.name "privacy_unit_column" then loop rest acc
        else if acc.isSome then .error .privacyUnitColumnSetTwice
        else if !isValidPrivacyUnitColumnExpr opt.value then
          .error .unsupportedPrivacyUnitColumnDef
        else loop rest (some opt.value)

/-- The forwarded option list: every option except privacy_unit_column is
copied verbatim. -/
def copyOptionsWithoutPrivacyUnitColumn (options : List ROption) :
    List ROption :=
  options.filter (fun opt => !caseEqual opt.name "privacy_unit_column")

/-- The outer GROUP BY list: each original group-by column stays in place
but is redefined as a plain reference to its intermediate per-user
column. -/
def buildOuterGroupByList (groupByList : List ComputedColumn)
    (injectedColMap : List (RColumn × RColumn)) :
    Except RewriteError (List ComputedColumn) :=
  match groupByList with
  | [] => .ok []
  | cc :: rest =>
      match lookupInjected injectedColMap cc.column with
      | none => .error (.internalError "no injected column for group by column")
      | some ic =>
          match buildOuterGroupByList rest injectedColMap with
          | .ok rest' => .ok (⟨cc.column, makeColRef ic⟩ :: rest')
          | .error e => .error e

/-- The group selection threshold derivation from a detected unique users
count column, per node kind; none means the default synthesized threshold
must be used. -/
def deriveGroupSelectionThreshold (k : DPNodeKind) (config : AnalyzerConfig)
    (uniqueUsersCountColumn : Option RColumn) :
    Except RewriteError (Option RExpr) :=
  match k with
  | .anonymized =>
      if !config.anonymizationThresholding then .ok none
      else
        match uniqueUsersCountColumn with
        | none => .ok none
        | some c =>
            match c.type with
            | .protoT _ _ => do
                let e ← makeExtractCountFromAnonOutputWithReportProto c
                .ok (some e)
            | .json =>
                if config.jsonValueExtractionFunctions then
                  .ok (some (makeExtractCountFromAnonOutputWithReportJson c))
                else .ok none
            | _ => .ok (some (makeColRef c))
  | .differentialPrivacy =>
      if !config.differentialPrivacyThresholding then .ok none
      else
        match uniqueUsersCountColumn with
        | none => .ok none
        | some c =>
            match c.type with
            | .protoT _ _ => .ok none
            | _ => .ok (some (makeColRef c))

/-- VisitResolvedDifferentialPrivacyAggregateScanTemplate: the full
private-aggregate rewrite pipeline, shared by the anonymized and
differential privacy node kinds. -/
def visitPrivateAggregateScan (fuel : Nat) (k : DPNodeKind)
    (cols : List RColumn) (inputScanNode : Scan)
    (groupByList aggregateList : List ComputedColumn)
    (options : List ROption) (config : AnalyzerConfig) (sh : Shared) :
    Except RewriteError (Scan × Shared) := do
  let maxGroupsContributed ← extractMaxGroupsContributed k options none
  let optionsUidColumn ← extractUidColumnFromOptions k options
  let (r, sh) ←
    rewritePerUserTransform fuel inputScanNode groupByList aggregateList
      optionsUidColumn sh
  let thresholdingEnabled :=
    config.anonymizationThresholding || config.differentialPrivacyThresholding
  let innerUidColumnId := (r.innerUidColumn.map RColumn.id).getD (-1)
  let (outerAggregateList, uniqueUsersCountColumn) ←
    rewriteOuterAggregateList aggregateList r.injectedColMap
      thresholdingEnabled innerUidColumnId none
  let derived ← deriveGroupSelectionThreshold k config uniqueUsersCountColumn
  let (groupSelectionThresholdExpr, outerAggregateList, cf) :=
    match derived with
    | some e => (e, outerAggregateList, sh.cf)
    | none =>
        let (thresholdCol, cf) :=
          match k with
          | .anonymized => makeGroupSelectionThresholdAnon sh.cf
          | .differentialPrivacy => makeGroupSelectionThresholdDP sh.cf
        (makeColRef thresholdCol.column, outerAggregateList ++ [thresholdCol],
          cf)
  let sh := { sh with cf := cf }
  let outerGroupByList ← buildOuterGroupByList groupByList r.injectedColMap
  let resolvedAnonymizationOptions := copyOptionsWithoutPrivacyUnitColumn options
  let (inputScan, resolvedAnonymizationOptions) ←
    addCrossPartitionSampleScan r.inputScan maxGroupsContributed
      (k.defaultMaxGroupsContributedOptionName) r.uidColumn
      resolvedAnonymizationOptions config.defaultAnonKappaValue
  let result : Scan :=
    match k with
    | .anonymized =>
        .anonAggregateScan cols inputScan outerGroupByList outerAggregateList
          (some groupSelectionThresholdExpr) resolvedAnonymizationOptions
    | .differentialPrivacy =>
        .dpAggregateScan cols inputScan outerGroupByList outerAggregateList
          (some groupSelectionThresholdExpr) resolvedAnonymizationOptions
  .ok (result, sh)

mutual

/-- RewriterVisitor: the top-level orchestrator.  Every scan kind other
than the private aggregate kinds is deep-copied with its children
rewritten in place; private aggregate nodes run the rewrite pipeline; WITH
scans register their entries for lazy rewriting and copy the unreferenced
ones through unchanged. -/
def rewriteScan (fuel : Nat) (config : AnalyzerConfig) :
    Scan → Shared → Except RewriteError (Scan × Shared)
  | .tableScan cols table idxs al, sh =>
      .ok (.tableScan cols table idxs al, sh)
  | .projectScan cols exprs input, sh => do
      let (input', sh) ← rewriteScan fuel config input sh
      .ok (.projectScan cols exprs input', sh)
  | .filterScan cols input filterExpr, sh => do
      let (input', sh) ← rewriteScan fuel config input sh
      .ok (.filterScan cols input' filterExpr, sh)
  | .joinScan cols jt left right joinExpr, sh => do
      let (left', sh) ← rewriteScan fuel config left sh
      let (right', sh) ← rewriteScan fuel config right sh
      .ok (.joinScan cols jt left' right' joinExpr, sh)
  | .aggregateScan cols input gb agg, sh => do
      let (input', sh) ← rewriteScan fuel config input sh
      .ok (.aggregateScan cols input' gb agg, sh)
  | .setOperationScan cols opType items, sh => do
      let (items', sh) ← rewriteScanSetOpItems fuel config items sh
      .ok (.setOperationScan cols opType items', sh)
  | .orderByScan cols input, sh => do
      let (input', sh) ← rewriteScan fuel config input sh
      .ok (.orderByScan cols input', sh)
  | .limitOffsetScan cols input, sh => do
      let (input', sh) ← rewriteScan fuel config input sh
      .ok (.limitOffsetScan cols input', sh)
  | .arrayScan cols input, sh => do
      let (input', sh) ← rewriteScan fuel config input sh
      .ok (.arrayScan cols input', sh)
  | .singleRowScan cols, sh => .ok (.singleRowScan cols, sh)
  | .sampleScan cols input method size unit rep weight partitionBy, sh => do
      let (input', sh) ← rewriteScan fuel config input sh
      .ok (.sampleScan cols input' method size unit rep weight partitionBy, sh)
  | .withScan cols entries query recursive, sh =>
      let offset := sh.withEntries.length
      let sh :=
        { sh with
          withEntries := sh.withEntries ++
            entries.map (fun e => ⟨e.1.withQueryName, e.2, none, none⟩) }
      do
        let (query', sh) ← rewriteScan fuel config query sh
        let (copiedEntries, sh) ←
          rewriteScanWithEntries fuel config offset 0 entries sh
        .ok (.withScan cols copiedEntries query' recursive, sh)
  | .withRefScan cols name, sh => .ok (.withRefScan cols name, sh)
  | .analyticScan cols input, sh => do
      let (input', sh) ← rewriteScan fuel config input sh
      .ok (.analyticScan cols input', sh)
  | .anonAggregateScan cols input gb agg _ opts, sh =>
      visitPrivateAggregateScan fuel .anonymized cols input gb agg opts config
        sh
  | .dpAggregateScan cols input gb agg _ opts, sh =>
      visitPrivateAggregateScan fuel .differentialPrivacy cols input gb agg
        opts config sh

/-- Deep copy of set operation input items at the top level, rewriting
each item scan. -/
def rewriteScanSetOpItems (fuel : Nat) (config : AnalyzerConfig) :
    List (SetOpItemData × Scan) → Shared →
    Except RewriteError (List (SetOpItemData × Scan) × Shared)
  | [], sh => .ok ([], sh)
  | (d, s) :: rest, sh => do
      let (s', sh) ← rewriteScan fuel config s sh
      let (rest', sh) ← rewriteScanSetOpItems fuel config rest sh
      .ok ((d, s') :: rest', sh)

/-- The WITH entry extraction loop of VisitResolvedWithScan: entries
rewritten during the subquery traversal are reused; the rest are copied
(through this visitor, so nested private aggregates inside unreferenced
entries are still rewritten). -/
def rewriteScanWithEntries (fuel : Nat) (config : AnalyzerConfig)
    (offset j : Nat) :
    List (WithEntryData × Scan) → Shared →
    Except RewriteError (List (WithEntryData × Scan) × Shared)
  | [], sh => .ok ([], sh)
  | (ed, escan) :: rest, sh => do
      let (entryScan', sh) ←
        match (sh.withEntries.get? (offset + j)).bind WithEntryState.rewritten
          with
        | some s => .ok (s, sh)
        | none => do
            let (s', sh) ← rewriteScan fuel config escan sh
            let sh :=
              match sh.withEntries.get? (offset + j) with
              | some entry =>
                  { sh with
                    withEntries := sh.withEntries.set (offset + j)
                      { entry with rewritten := some s' } }
              | none => sh
            .ok (s', sh)
      let (rest', sh) ←
        rewriteScanWithEntries fuel config offset (j + 1) rest sh
      .ok ((ed, entryScan') :: rest', sh)

end

/-- RewriteInternal / RewriteForAnonymization: run the orchestrator on the
whole tree with a fresh shared state.  The fuel bound is derived from
nothing in particular; any bound large enough for the lazy WITH entry
recursion works, and the theorems quantify over it. -/
def rewriteForAnonymization (fuel : Nat) (config : AnalyzerConfig)
    (tree : Scan) (cf : ColumnFactory) :
    Except RewriteError (Scan × Shared) :=
  rewriteScan fuel config tree { cf := cf, withEntries := [] }

mutual

/-- Whether a tree contains a private aggregate node. -/
def containsPrivateAggregate : Scan → Bool
  | .tableScan _ _ _ _ => false
  | .projectScan _ _ input => containsPrivateAggregate input
  | .filterScan _ input _ => containsPrivateAggregate input
  | .joinScan _ _ left right _ =>
      containsPrivateAggregate left || containsPrivateAggregate right
  | .aggregateScan _ input _ _ => containsPrivateAggregate input
  | .setOperationScan _ _ items => containsPrivateAggregateItems items
  | .orderByScan _ input => containsPrivateAggregate input
  | .limitOffsetScan _ input => containsPrivateAggregate input
  | .arrayScan _ input => containsPrivateAggregate input
  | .singleRowScan _ => false
  | .sampleScan _ input _ _ _ _ _ _ => containsPrivateAggregate input
  | .withScan _ entries query _ =>
      containsPrivateAggregateEntries entries || containsPrivateAggregate query
  | .withRefScan _ _ => false
  | .analyticScan _ input => containsPrivateAggregate input
  | .anonAggregateScan _ _ _ _ _ _ => true
  | .dpAggregateScan _ _ _ _ _ _ => true

/-- Private aggregate search over set operation input items. -/
def containsPrivateAggregateItems : List (SetOpItemData × Scan) → Bool
  | [] => false
  | (_, s) :: rest =>
      containsPrivateAggregate s || containsPrivateAggregateItems rest

/-- Private aggregate search over WITH entries. -/
def containsPrivateAggregateEntries : List (WithEntryData × Scan) → Bool
  | [] => false
  | (_, s) :: rest =>
      containsPrivateAggregate s || containsPrivateAggregateEntries rest

end

/-- An expression that is a bare column reference to the given uid
column. -/
def bareUidReference (u : RColumn) : RExpr → Bool
  | .colRef c => c.id == u.id
  | _ => false

/-- An aggregate list entry whose original call counts unique privacy
units. -/
def isCountUniqueUsersEntry (uidColumnId : Int) (cc : ComputedColumn) : Bool :=
  match cc.expr with
  | .aggCall _ fn args _ _ _ => isCountUniqueUsers fn args uidColumnId
  | _ => false

/-- The specification-side reading of the join predicate requirement: the
expression is, at the top level or arbitrarily deep inside nested AND
calls, an equality function call in which some argument matches the left
uid and some argument matches the right uid. -/
inductive ContainsUidEquality (leftUid rightUid : UidColumnState) : RExpr → Prop
  where
  | equal (t : RType) (fn : FnInfo) (args : List RExpr)
      (hScalar : fn.isScalar = true) (hBuiltin : fn.isZetaSQLBuiltin = true)
      (hId : fn.contextId = .FN_EQUAL)
      (hLeft : ∃ a ∈ args, leftUid.matchesPathExpression a = true)
      (hRight : ∃ a ∈ args, rightUid.matchesPathExpression a = true) :
      ContainsUidEquality leftUid rightUid (.funcCall t fn args)
  | nestedAnd (t : RType) (fn : FnInfo) (args : List RExpr) (a : RExpr)
      (hScalar : fn.isScalar = true) (hBuiltin : fn.isZetaSQLBuiltin = true)
      (hId : fn.contextId = .FN_AND) (hMem : a ∈ args)
      (hSub : ContainsUidEquality leftUid rightUid a) :
      ContainsUidEquality leftUid rightUid (.funcCall t fn args)

/-- C10: when the max_groups_contributed option is absent and the
configured process default kappa value is exactly 0, the rewrite step
succeeds with no SampleScan inserted and the forwarded option list
unchanged — contribution bounding is silently skipped. -/
theorem addCrossPartitionSampleScan_absent_option_zero_default
    (inputScan : Scan) (optName : String) (uidColumn : RColumn)
    (opts : List ROption) :
    addCrossPartitionSampleScan inputScan none optName uidColumn opts 0 =
      .ok (inputScan, opts) := by
  rfl

/-- C3: an explicit NULL max_groups_contributed never samples; an absent
option with a nonzero in-range default adopts the default, appends an
explicit max_groups_contributed option with that value, and wraps the scan
in a RESERVOIR sample with a ROWS bound of the default partitioned by
exactly the uid column; a validated positive explicit value yields the
same sample scan with that value and an unchanged option list. -/
theorem addCrossPartitionSampleScan_spec :
    (∀ (inputScan : Scan) (optName : String) (uidColumn : RColumn)
        (opts : List ROption) (d : Int) (t : RType),
      addCrossPartitionSampleScan inputScan (some (.nullV t)) optName uidColumn
          opts d = .ok (inputScan, opts)) ∧
    (∀ (inputScan : Scan) (optName : String) (uidColumn : RColumn)
        (opts : List ROption) (d : Int), 0 < d → d < int32Max →
      addCrossPartitionSampleScan inputScan none optName uidColumn opts d =
        .ok (.sampleScan inputScan.columnList inputScan "RESERVOIR"
            (.literal .int64 (.int64V d)) .rows none none
            [makeColRef uidColumn],
          opts ++ [⟨"", optName, .literal .int64 (.int64V d)⟩])) ∧
    (∀ (inputScan : Scan) (optName : String) (uidColumn : RColumn)
        (opts : List ROption) (d n : Int), 1 ≤ n → 0 ≤ d → d < int32Max →
      addCrossPartitionSampleScan inputScan (some (.int64V n)) optName
          uidColumn opts d =
        .ok (.sampleScan inputScan.columnList inputScan "RESERVOIR"
            (.literal .int64 (.int64V n)) .rows none none
            [makeColRef uidColumn],
          opts)) := by
  refine ⟨fun inputScan optName uidColumn opts d t => rfl, ?_, ?_⟩
  · intro inputScan optName uidColumn opts d hd0 hdm
    have h0 : (0 : Int) ≤ d := le_of_lt hd0
    simp [addCrossPartitionSampleScan,
      addCrossPartitionSampleScan.addSampleScanIfNeeded, h0, hdm, hd0,
      RValue.isNull]
  · intro inputScan optName uidColumn opts d n hn hd0 hdm
    simp [addCrossPartitionSampleScan,
      addCrossPartitionSampleScan.addSampleScanIfNeeded, hd0, hdm,
      RValue.isNull]

/-- Witness for C3 at concrete inputs. -/
theorem addCrossPartitionSampleScan_spec_witness :
    addCrossPartitionSampleScan (.singleRowScan []) none "max_groups_contributed"
        ⟨1, "T", "uid", .int64⟩ [] 7 =
      .ok (.sampleScan [] (.singleRowScan []) "RESERVOIR"
          (.literal .int64 (.int64V 7)) .rows none none
          [makeColRef ⟨1, "T", "uid", .int64⟩],
        [⟨"", "max_groups_contributed", .literal .int64 (.int64V 7)⟩]) :=
  addCrossPartitionSampleScan_spec.2.1 (.singleRowScan []) "max_groups_contributed"
    ⟨1, "T", "uid", .int64⟩ [] 7 (by decide) (by decide)

/-- The executable join predicate check agrees with the declarative
reading: some conjunct reachable through nested AND calls is an equality
whose arguments cover both uid columns. -/
theorem joinExprIncludesUid_iff_containsUidEquality
    (leftUid rightUid : UidColumnState) (e : RExpr) :
    joinExprIncludesUid e leftUid rightUid = true ↔
      ContainsUidEquality leftUid rightUid e := by
  have main : ∀ (n : Nat) (e : RExpr), sizeOf e ≤ n →
      (joinExprIncludesUid e leftUid rightUid = true ↔
        ContainsUidEquality leftUid rightUid e) := by
    intro n
    induction n with
    | zero =>
        intro e he
        exfalso
        cases e <;> simp at he
    | succ n ih =>
        intro e he
        match e with
        | .literal t v =>
            simp only [joinExprIncludesUid]
            constructor
            · intro h; exact absurd h (by simp)
            · intro h; cases h
        | .colRef c =>
            simp only [joinExprIncludesUid]
            constructor
            · intro h; exact absurd h (by simp)
            · intro h; cases h
        | .getStructField t input idx =>
            simp only [joinExprIncludesUid]
            constructor
            · intro h; exact absurd h (by simp)
            · intro h; cases h
        | .getProtoField t input fieldName =>
            simp only [joinExprIncludesUid]
            constructor
            · intro h; exact absurd h (by simp)
            · intro h; cases h
        | .aggCall t fn args nh ob lim =>
            simp only [joinExprIncludesUid]
            constructor
            · intro h; exact absurd h (by simp)
            · intro h; cases h
        | .funcCall t fn args =>
            rw [joinExprIncludesUid]
            by_cases hs : fn.isScalar
            · by_cases hb : fn.isZetaSQLBuiltin
              · simp only [hs, hb, Bool.not_true, Bool.false_or, Bool.or_self,
                  if_false, Bool.not_false]
                simp only [Bool.false_eq_true, if_false]
                cases hctx : fn.contextId with
                | FN_AND =>
                    constructor
                    · intro h
                      rcases List.any_eq_true.mp h with ⟨a, haMem, hpa⟩
                      have hsz : sizeOf a.1 ≤ n := by
                        have h1 := List.sizeOf_lt_of_mem a.2
                        have h2 : sizeOf (RExpr.funcCall t fn args) ≤ n + 1 :=
                          he
                        simp only [RExpr.funcCall.sizeOf_spec] at h2
                        omega
                      exact .nestedAnd t fn args a.1 hs hb hctx a.2
                        ((ih a.1 hsz).mp hpa)
                    · intro h
                      cases h with
                      | equal _ _ _ hScalar hBuiltin hId hLeft hRight =>
                          rw [hctx] at hId; cases hId
                      | nestedAnd _ _ _ a hScalar hBuiltin hId hMem hSub =>
                          refine List.any_eq_true.mpr ?_
                          refine ⟨⟨a, hMem⟩, List.mem_attach _ _, ?_⟩
                          have hsz : sizeOf a ≤ n := by
                            have h1 := List.sizeOf_lt_of_mem hMem
                            have h2 : sizeOf (RExpr.funcCall t fn args) ≤ n + 1 :=
                              he
                            simp only [RExpr.funcCall.sizeOf_spec] at h2
                            omega
                          exact (ih a hsz).mpr hSub
                | FN_EQUAL =>
                    constructor
                    · intro h
                      rw [functionReferencesUid] at h
                      simp only [Bool.and_eq_true] at h
                      rcases h with ⟨hl, hr⟩
                      rcases List.any_eq_true.mp hl with ⟨a, haMem, hpa⟩
                      rcases List.any_eq_true.mp hr with ⟨b, hbMem, hpb⟩
                      exact .equal t fn args hs hb hctx ⟨a, haMem, hpa⟩
                        ⟨b, hbMem, hpb⟩
                    · intro h
                      cases h with
                      | equal _ _ _ hScalar hBuiltin hId hLeft hRight =>
                          rw [functionReferencesUid]
                          simp only [Bool.and_eq_true]
                          refine ⟨?_, ?_⟩
                          · rcases hLeft with ⟨a, haMem, hpa⟩
                            exact List.any_eq_true.mpr ⟨a, haMem, hpa⟩
                          · rcases hRight with ⟨b, hbMem, hpb⟩
                            exact List.any_eq_true.mpr ⟨b, hbMem, hpb⟩
                      | nestedAnd _ _ _ a hScalar hBuiltin hId hMem hSub =>
                          rw [hctx] at hId; cases hId
                | _ =>
                    constructor
                    · intro h
                      exact absurd h (by simp)
                    · intro h
                      cases h with
                      | equal _ _ _ hScalar hBuiltin hId hLeft hRight =>
                          rw [hctx] at hId; cases hId
                      | nestedAnd _ _ _ a hScalar hBuiltin hId hMem hSub =>
                          rw [hctx] at hId; cases hId
              · have hguard : (!fn.isScalar || !fn.isZetaSQLBuiltin) = true := by
                  simp [hb]
                rw [hguard]
                simp only [if_true]
                constructor
                · intro h; exact absurd h (by simp)
                · intro h
                  cases h with
                  | equal _ _ _ hScalar hBuiltin hId hLeft hRight =>
                      exact absurd hBuiltin (by simp [hb])
                  | nestedAnd _ _ _ a hScalar hBuiltin hId hMem hSub =>
                      exact absurd hBuiltin (by simp [hb])
            · have hguard : (!fn.isScalar || !fn.isZetaSQLBuiltin) = true := by
                simp [hs]
              rw [hguard]
              simp only [if_true]
              constructor
              · intro h; exact absurd h (by simp)
              · intro h
                cases h with
                | equal _ _ _ hScalar hBuiltin hId hLeft hRight =>
                    exact absurd hScalar (by simp [hs])
                | nestedAnd _ _ _ a hScalar hBuiltin hId hMem hSub =>
                    exact absurd hScalar (by simp [hs])
  exact main (sizeOf e) e (Nat.le_refl _)

/-- C2: for a join whose rewritten children both carry uid columns of
equal, equality-supporting type, validation succeeds exactly when the join
predicate exists and contains, at the top level or arbitrarily deep inside
nested AND calls, an equality call matching both uid columns; an absent
predicate and a present-but-not-uid-equating predicate produce different
user errors. -/
theorem joinValidation_uid_equality_spec (joinExpr : Option RExpr)
    (leftUid rightUid : UidColumnState) (lc rc : RColumn)
    (hTy : RType.beq lc.type rc.type = true)
    (hEq : lc.type.supportsEquality = true) :
    (validateBothPrivateJoin joinExpr leftUid rightUid lc rc = .ok () ↔
      ∃ e, joinExpr = some e ∧ ContainsUidEquality leftUid rightUid e) ∧
    (joinExpr = none →
      validateBothPrivateJoin joinExpr leftUid rightUid lc rc =
        .error (.joinMissingUidPredicate
          (formatJoinUidError ", add ON " "" leftUid rightUid))) ∧
    (∀ e, joinExpr = some e → ¬ ContainsUidEquality leftUid rightUid e →
      validateBothPrivateJoin joinExpr leftUid rightUid lc rc =
        .error (.joinPredicateLacksUid
          (formatJoinUidError ", add AND " " to the join ON expression"
            leftUid rightUid))) ∧
    (∀ s1 s2, RewriteError.joinMissingUidPredicate s1 ≠
      RewriteError.joinPredicateLacksUid s2) := by
  refine ⟨?_, ?_, ?_, by intro s1 s2 h; cases h⟩
  · constructor
    · intro h
      rw [validateBothPrivateJoin.eq_def] at h
      simp only [hTy, hEq, Bool.not_true, Bool.false_eq_true, if_false] at h
      match hje : joinExpr with
      | none => exact absurd h (by simp)
      | some e =>
          by_cases hinc : joinExprIncludesUid e leftUid rightUid
          · exact ⟨e, rfl,
              (joinExprIncludesUid_iff_containsUidEquality leftUid rightUid
                e).mp hinc⟩
          · exfalso
            simp only [Bool.not_eq_true] at hinc
            simp [hinc] at h
    · rintro ⟨e, hje, hcontains⟩
      rw [validateBothPrivateJoin.eq_def, hje]
      simp only [hTy, hEq, Bool.not_true, Bool.false_eq_true, if_false]
      have hinc := (joinExprIncludesUid_iff_containsUidEquality leftUid
        rightUid e).mpr hcontains
      rw [hinc]
      simp
  · intro hje
    rw [validateBothPrivateJoin.eq_def, hje]
    simp [hTy, hEq]
  · intro e hje hnot
    rw [validateBothPrivateJoin.eq_def, hje]
    simp only [hTy, hEq, Bool.not_true, Bool.false_eq_true, if_false]
    have hinc : joinExprIncludesUid e leftUid rightUid = false := by
      by_contra hc
      simp only [Bool.not_eq_false] at hc
      exact hnot ((joinExprIncludesUid_iff_containsUidEquality leftUid
        rightUid e).mp hc)
    rw [hinc]
    simp

/-- Witness for C2 at a concrete join: an equality on the two uid columns
validates, and the two failure errors are distinct. -/
theorem joinValidation_uid_equality_spec_witness :
    validateBothPrivateJoin
        (some (.funcCall .bool_ ⟨"$equal", true, true, .FN_EQUAL⟩
          [makeColRef ⟨1, "A", "uid", .int64⟩,
            makeColRef ⟨2, "B", "uid", .int64⟩]))
        ⟨some ⟨1, "A", "uid", .int64⟩, "", none⟩
        ⟨some ⟨2, "B", "uid", .int64⟩, "", none⟩
        ⟨1, "A", "uid", .int64⟩ ⟨2, "B", "uid", .int64⟩ = .ok () ∧
      RewriteError.joinMissingUidPredicate "x" ≠
        RewriteError.joinPredicateLacksUid "x" := by
  have h := joinValidation_uid_equality_spec
    (some (.funcCall .bool_ ⟨"$equal", true, true, .FN_EQUAL⟩
      [makeColRef ⟨1, "A", "uid", .int64⟩, makeColRef ⟨2, "B", "uid", .int64⟩]))
    ⟨some ⟨1, "A", "uid", .int64⟩, "", none⟩
    ⟨some ⟨2, "B", "uid", .int64⟩, "", none⟩
    ⟨1, "A", "uid", .int64⟩ ⟨2, "B", "uid", .int64⟩ (by decide) (by decide)
  refine ⟨h.1.mpr ?_, h.2.2.2 "x" "x"⟩
  refine ⟨_, rfl, .equal _ _ _ rfl rfl rfl ?_ ?_⟩
  · exact ⟨makeColRef ⟨1, "A", "uid", .int64⟩, by simp, by decide⟩
  · exact ⟨makeColRef ⟨2, "B", "uid", .int64⟩, by simp, by decide⟩

/-- C4: the join result uid is selected by join kind — INNER takes the
left uid if present else the right, LEFT and RIGHT demand a uid on the
preserved side (user error otherwise) and take it, FULL demands both
(user error otherwise) and projects a freshly allocated column defined as
coalesce of the two uids above the join; in the non-FULL cases the chosen
uid column is appended to the join output column list when not already
present (the last conjunct shows the projected list always contains it). -/
theorem joinUidSelection_spec (cols : List RColumn) (left right : Scan)
    (joinExpr : Option RExpr) (leftSt rightSt : UidColumnState)
    (cf : ColumnFactory) :
    (∀ lu, leftSt.column = some lu →
      joinUidSelection cols .inner left right joinExpr leftSt rightSt cf =
        .ok (.joinScan (projectIfMissing lu cols) .inner left right joinExpr,
          leftSt, cf)) ∧
    (leftSt.column = none → ∀ ru, rightSt.column = some ru →
      joinUidSelection cols .inner left right joinExpr leftSt rightSt cf =
        .ok (.joinScan (projectIfMissing ru cols) .inner left right joinExpr,
          rightSt, cf)) ∧
    (leftSt.column = none →
      joinUidSelection cols .left left right joinExpr leftSt rightSt cf =
        .error .leftJoinMissingUserData) ∧
    (∀ lu, leftSt.column = some lu →
      joinUidSelection cols .left left right joinExpr leftSt rightSt cf =
        .ok (.joinScan (projectIfMissing lu cols) .left left right joinExpr,
          leftSt, cf)) ∧
    (rightSt.column = none →
      joinUidSelection cols .right left right joinExpr leftSt rightSt cf =
        .error .rightJoinMissingUserData) ∧
    (∀ ru, rightSt.column = some ru →
      joinUidSelection cols .right left right joinExpr leftSt rightSt cf =
        .ok (.joinScan (projectIfMissing ru cols) .right left right joinExpr,
          rightSt, cf)) ∧
    ((leftSt.column = none ∨ rightSt.column = none) →
      joinUidSelection cols .full left right joinExpr leftSt rightSt cf =
        .error .fullJoinMissingUserData) ∧
    (∀ lu ru, leftSt.column = some lu → rightSt.column = some ru →
      joinUidSelection cols .full left right joinExpr leftSt rightSt cf =
        .ok (.projectScan (cols ++ [(cf.makeCol "$join" "$uid" lu.type).1])
            [⟨(cf.makeCol "$join" "$uid" lu.type).1,
              .funcCall lu.type ⟨"coalesce", true, true, .FN_COALESCE⟩
                [makeColRef lu, makeColRef ru]⟩]
            (.joinScan (cols ++ [lu, ru]) .full left right joinExpr),
          ⟨some (cf.makeCol "$join" "$uid" lu.type).1, "", none⟩,
          (cf.makeCol "$join" "$uid" lu.type).2)) ∧
    (∀ (u : RColumn) (cs : List RColumn),
      (projectIfMissing u cs).any (fun c => c.sameAs u) = true) := by
  refine ⟨?_, ?_, ?_, ?_, ?_, ?_, ?_, ?_, ?_⟩
  · intro lu hlu
    simp [joinUidSelection, hlu]
  · intro hln ru hru
    simp [joinUidSelection, hln, hru]
  · intro hln
    simp [joinUidSelection, hln]
  · intro lu hlu
    simp [joinUidSelection, hlu]
  · intro hrn
    simp [joinUidSelection, hrn]
  · intro ru hru
    simp [joinUidSelection, hru]
  · intro h
    rcases h with hln | hrn
    · cases hr : rightSt.column <;> simp [joinUidSelection, hln, hr]
    · cases hl : leftSt.column <;> simp [joinUidSelection, hl, hrn]
  · intro lu ru hlu hru
    simp [joinUidSelection, hlu, hru, RExpr.typeOf, makeColRef]
  · intro u cs
    rw [projectIfMissing]
    by_cases h : cs.any (fun c => c.sameAs u)
    · simp [h]
    · simp only [h]
      simp [RColumn.sameAs]

/-- Witness for C4: a FULL join of two private sides projects the coalesce
column, and a LEFT join with a non-private left side fails. -/
theorem joinUidSelection_spec_witness :
    joinUidSelection [] .full (.singleRowScan []) (.singleRowScan []) none
        ⟨some ⟨1, "A", "uid", .int64⟩, "", none⟩
        ⟨some ⟨2, "B", "uid", .int64⟩, "", none⟩ ⟨10⟩ =
      .ok (.projectScan [⟨11, "$join", "$uid", .int64⟩]
          [⟨⟨11, "$join", "$uid", .int64⟩,
            .funcCall .int64 ⟨"coalesce", true, true, .FN_COALESCE⟩
              [makeColRef ⟨1, "A", "uid", .int64⟩,
                makeColRef ⟨2, "B", "uid", .int64⟩]⟩]
          (.joinScan [⟨1, "A", "uid", .int64⟩, ⟨2, "B", "uid", .int64⟩] .full
            (.singleRowScan []) (.singleRowScan []) none),
        ⟨some ⟨11, "$join", "$uid", .int64⟩, "", none⟩, ⟨11⟩) ∧
      joinUidSelection [] .left (.singleRowScan []) (.singleRowScan []) none
          ⟨none, "", none⟩ ⟨some ⟨2, "B", "uid", .int64⟩, "", none⟩ ⟨10⟩ =
        .error .leftJoinMissingUserData := by
  constructor
  · exact (joinUidSelection_spec [] (.singleRowScan []) (.singleRowScan [])
      none ⟨some ⟨1, "A", "uid", .int64⟩, "", none⟩
      ⟨some ⟨2, "B", "uid", .int64⟩, "", none⟩ ⟨10⟩).2.2.2.2.2.2.2.1
      ⟨1, "A", "uid", .int64⟩ ⟨2, "B", "uid", .int64⟩ rfl rfl
  · exact (joinUidSelection_spec [] (.singleRowScan []) (.singleRowScan [])
      none ⟨none, "", none⟩ ⟨some ⟨2, "B", "uid", .int64⟩, "", none⟩
      ⟨10⟩).2.2.1 rfl

/-- C5: the outer rewrite always overwrites the first argument slot with a
reference to the intermediate per-user column; COUNT-shaped builtins are
retargeted to SUM-shaped equivalents, count-star variants via a
placeholder first argument that the overwrite replaces; the differential
privacy count family forwards its named contribution-bound (and report
format) arguments by position. -/
theorem resolveOuterAggregate_spec (node : AggFnInfo) (targetColumn : RColumn)
    (arguments : List (Option RExpr)) :
    (arguments ≠ [] ∨
        (node.group = kZetaSQLFunctionGroupName ∧
          isCountStarFunction node.contextId = true) →
      (resolveOuterAggregateFunctionCallForAnonFunction node targetColumn
          arguments).arguments.head? = some (some (makeColRef targetColumn))) ∧
    (node.group = kZetaSQLFunctionGroupName →
      isCountStarFunction node.contextId = true →
      (resolveOuterAggregateFunctionCallForAnonFunction node targetColumn
          arguments).arguments =
        some (makeColRef targetColumn) :: arguments) ∧
    (node.group = kZetaSQLFunctionGroupName →
      (node.contextId = .FN_ANON_COUNT_STAR ∨
        node.contextId = .FN_ANON_COUNT) →
      (resolveOuterAggregateFunctionCallForAnonFunction node targetColumn
          arguments).target = "anon_sum") ∧
    (node.group = kZetaSQLFunctionGroupName →
      (node.contextId = .FN_ANON_COUNT_STAR_WITH_REPORT_JSON ∨
        node.contextId = .FN_ANON_COUNT_WITH_REPORT_JSON) →
      (resolveOuterAggregateFunctionCallForAnonFunction node targetColumn
          arguments).target = "$anon_sum_with_report_json") ∧
    (node.group = kZetaSQLFunctionGroupName →
      (node.contextId = .FN_ANON_COUNT_STAR_WITH_REPORT_PROTO ∨
        node.contextId = .FN_ANON_COUNT_WITH_REPORT_PROTO) →
      (resolveOuterAggregateFunctionCallForAnonFunction node targetColumn
          arguments).target = "$anon_sum_with_report_proto") ∧
    (node.group = kZetaSQLFunctionGroupName →
      (node.contextId = .FN_DIFFERENTIAL_PRIVACY_COUNT_STAR ∨
        node.contextId = .FN_DIFFERENTIAL_PRIVACY_COUNT) →
      (resolveOuterAggregateFunctionCallForAnonFunction node targetColumn
            arguments).target = "$differential_privacy_sum" ∧
        (resolveOuterAggregateFunctionCallForAnonFunction node targetColumn
            arguments).namedArguments =
          [("contribution_bounds_per_group", 1)]) ∧
    (node.group = kZetaSQLFunctionGroupName →
      (node.contextId = .FN_DIFFERENTIAL_PRIVACY_COUNT_STAR_REPORT_JSON ∨
        node.contextId = .FN_DIFFERENTIAL_PRIVACY_COUNT_STAR_REPORT_PROTO ∨
        node.contextId = .FN_DIFFERENTIAL_PRIVACY_COUNT_REPORT_JSON ∨
        node.contextId = .FN_DIFFERENTIAL_PRIVACY_COUNT_REPORT_PROTO) →
      (resolveOuterAggregateFunctionCallForAnonFunction node targetColumn
            arguments).target = "$differential_privacy_sum" ∧
        (resolveOuterAggregateFunctionCallForAnonFunction node targetColumn
            arguments).namedArguments =
          [("report_format", 1), ("contribution_bounds_per_group", 2)]) := by
  refine ⟨?_, ?_, ?_, ?_, ?_, ?_, ?_⟩
  · intro h
    rcases h with hne | ⟨hg, hstar⟩
    · rcases arguments with _ | ⟨a, rest⟩
      · exact absurd rfl hne
      · by_cases hg : node.group == kZetaSQLFunctionGroupName
        · cases hctx : node.contextId <;>
            simp [resolveOuterAggregateFunctionCallForAnonFunction, hg, hctx]
        · simp [resolveOuterAggregateFunctionCallForAnonFunction, hg]
    · cases hctx : node.contextId <;> rw [hctx] at hstar <;>
        simp [isCountStarFunction] at hstar <;>
        simp [resolveOuterAggregateFunctionCallForAnonFunction, hg, hctx]
  · intro hg hstar
    cases hctx : node.contextId <;> rw [hctx] at hstar <;>
      simp [isCountStarFunction] at hstar <;>
      simp [resolveOuterAggregateFunctionCallForAnonFunction, hg, hctx]
  · intro hg h
    rcases h with h | h <;>
      simp [resolveOuterAggregateFunctionCallForAnonFunction, hg, h]
  · intro hg h
    rcases h with h | h <;>
      simp [resolveOuterAggregateFunctionCallForAnonFunction, hg, h]
  · intro hg h
    rcases h with h | h <;>
      simp [resolveOuterAggregateFunctionCallForAnonFunction, hg, h]
  · intro hg h
    rcases h with h | h <;>
      simp [resolveOuterAggregateFunctionCallForAnonFunction, hg, h]
  · intro hg h
    rcases h with h | h | h | h <;>
      simp [resolveOuterAggregateFunctionCallForAnonFunction, hg, h]

/-- Witness for C5: the rewrite of a concrete ANON_COUNT star call. -/
theorem resolveOuterAggregate_spec_witness :
    (resolveOuterAggregateFunctionCallForAnonFunction
        ⟨"$anon_count_star", kZetaSQLFunctionGroupName, .FN_ANON_COUNT_STAR,
          true, "$count_star", .int64, .int64, []⟩
        ⟨5, "$aggregate", "$agg1_partial", .int64⟩ []).arguments =
      [some (makeColRef ⟨5, "$aggregate", "$agg1_partial", .int64⟩)] ∧
    (resolveOuterAggregateFunctionCallForAnonFunction
        ⟨"$anon_count_star", kZetaSQLFunctionGroupName, .FN_ANON_COUNT_STAR,
          true, "$count_star", .int64, .int64, []⟩
        ⟨5, "$aggregate", "$agg1_partial", .int64⟩ []).target = "anon_sum" := by
  constructor
  · exact (resolveOuterAggregate_spec
      ⟨"$anon_count_star", kZetaSQLFunctionGroupName, .FN_ANON_COUNT_STAR,
        true, "$count_star", .int64, .int64, []⟩
      ⟨5, "$aggregate", "$agg1_partial", .int64⟩ []).2.1 rfl (by decide)
  · exact (resolveOuterAggregate_spec
      ⟨"$anon_count_star", kZetaSQLFunctionGroupName, .FN_ANON_COUNT_STAR,
        true, "$count_star", .int64, .int64, []⟩
      ⟨5, "$aggregate", "$agg1_partial", .int64⟩ []).2.2.1 rfl (Or.inl rfl)

/-- C6: the inner rewrite resolves the plain per-user counterpart named by
the function object with the argument list truncated to the single first
data argument — empty for count-star-family calls — and for the
array-aggregating families attaches an ORDER BY item on the shared
randomizing column (freshly allocated as ($orderbycol1, double) on first
use), ignore-nulls handling, and the fixed per-user array aggregation
limit. -/
theorem resolveInnerAggregate_spec (node : AggFnInfo)
    (arguments : List (Option RExpr)) (orderByColumn : Option RColumn)
    (cf : ColumnFactory) (hAnon : node.isAnonFunction = true) :
    (node.group = kZetaSQLFunctionGroupName →
      isCountStarFunction node.contextId = true →
      resolveInnerAggregateFunctionCallForAnonFunction node arguments
          orderByColumn cf =
        .ok (.aggCall node.partialType { node with name := node.partialName }
            [] .defaultNullHandling [] none,
          orderByColumn, cf)) ∧
    (isCountStarFunction node.contextId = false →
      hasInnerAggregateArray node.contextId = false →
      ∀ a rest, arguments = a :: rest →
      resolveInnerAggregateFunctionCallForAnonFunction node arguments
          orderByColumn cf =
        .ok (.aggCall node.partialType { node with name := node.partialName }
            [a] .defaultNullHandling [] none,
          orderByColumn, cf)) ∧
    (node.group = kZetaSQLFunctionGroupName →
      hasInnerAggregateArray node.contextId = true →
      ∀ c, orderByColumn = some c →
      resolveInnerAggregateFunctionCallForAnonFunction node arguments
          orderByColumn cf =
        .ok (.aggCall node.partialType { node with name := node.partialName }
            [arguments.head?.join] .ignoreNulls [c]
            (some (.literal .int64 (.int64V kPerUserArrayAggLimit))),
          some c, cf)) ∧
    (node.group = kZetaSQLFunctionGroupName →
      hasInnerAggregateArray node.contextId = true →
      orderByColumn = none →
      resolveInnerAggregateFunctionCallForAnonFunction node arguments
          orderByColumn cf =
        .ok (.aggCall node.partialType { node with name := node.partialName }
            [arguments.head?.join] .ignoreNulls
            [(cf.makeCol "$orderby" "$orderbycol1" .double).1]
            (some (.literal .int64 (.int64V kPerUserArrayAggLimit))),
          some (cf.makeCol "$orderby" "$orderbycol1" .double).1,
          (cf.makeCol "$orderby" "$orderbycol1" .double).2)) := by
  refine ⟨?_, ?_, ?_, ?_⟩
  · intro hg hstar
    cases hctx : node.contextId <;> rw [hctx] at hstar <;>
      simp [isCountStarFunction] at hstar <;>
      simp [resolveInnerAggregateFunctionCallForAnonFunction, hAnon, hg, hctx,
        isCountStarFunction, hasInnerAggregateArray]
  · intro hstar harr a rest hargs
    subst hargs
    simp [resolveInnerAggregateFunctionCallForAnonFunction, hAnon, hstar, harr]
  · intro hg harr c hob
    subst hob
    cases hctx : node.contextId <;> rw [hctx] at harr <;>
      simp [hasInnerAggregateArray] at harr <;>
      simp [resolveInnerAggregateFunctionCallForAnonFunction, hAnon, hg, hctx,
        isCountStarFunction, hasInnerAggregateArray]
  · intro hg harr hob
    subst hob
    cases hctx : node.contextId <;> rw [hctx] at harr <;>
      simp [hasInnerAggregateArray] at harr <;>
      simp [resolveInnerAggregateFunctionCallForAnonFunction, hAnon, hg, hctx,
        isCountStarFunction, hasInnerAggregateArray]

/-- Witness for C6: a concrete ANON_VAR_POP call gets the randomizing
order-by column, ignore-nulls handling and the limit of five; a concrete
ANON_COUNT star call gets an empty argument list. -/
theorem resolveInnerAggregate_spec_witness :
    resolveInnerAggregateFunctionCallForAnonFunction
        ⟨"anon_var_pop", kZetaSQLFunctionGroupName, .FN_ANON_VAR_POP_DOUBLE,
          true, "array_agg", .double, .double, []⟩
        [some (makeColRef ⟨3, "T", "v", .double⟩)] none ⟨20⟩ =
      .ok (.aggCall .double
          ⟨"array_agg", kZetaSQLFunctionGroupName, .FN_ANON_VAR_POP_DOUBLE,
            true, "array_agg", .double, .double, []⟩
          [some (makeColRef ⟨3, "T", "v", .double⟩)] .ignoreNulls
          [⟨21, "$orderby", "$orderbycol1", .double⟩]
          (some (.literal .int64 (.int64V 5))),
        some ⟨21, "$orderby", "$orderbycol1", .double⟩, ⟨21⟩) ∧
    resolveInnerAggregateFunctionCallForAnonFunction
        ⟨"$anon_count_star", kZetaSQLFunctionGroupName, .FN_ANON_COUNT_STAR,
          true, "$count_star", .int64, .int64, []⟩
        [] none ⟨20⟩ =
      .ok (.aggCall .int64
          ⟨"$count_star", kZetaSQLFunctionGroupName, .FN_ANON_COUNT_STAR,
            true, "$count_star", .int64, .int64, []⟩
          [] .defaultNullHandling [] none,
        none, ⟨20⟩) := by
  constructor
  · exact (resolveInnerAggregate_spec
      ⟨"anon_var_pop", kZetaSQLFunctionGroupName, .FN_ANON_VAR_POP_DOUBLE,
        true, "array_agg", .double, .double, []⟩
      [some (makeColRef ⟨3, "T", "v", .double⟩)] none ⟨20⟩ rfl).2.2.2 rfl rfl
      rfl
  · exact (resolveInnerAggregate_spec
      ⟨"$anon_count_star", kZetaSQLFunctionGroupName, .FN_ANON_COUNT_STAR,
        true, "$count_star", .int64, .int64, []⟩
      [] none ⟨20⟩ rfl).1 rfl rfl

/-- Once the unique users candidate column is set, the outer list rewriter
never replaces it. -/
theorem rewriteOuterAggregateList_keeps_found (m : List (RColumn × RColumn))
    (tE : Bool) (uidId : Int) (c : RColumn) :
    ∀ (list : List ComputedColumn) (res : List ComputedColumn × Option RColumn),
      rewriteOuterAggregateList list m tE uidId (some c) = .ok res →
      res.2 = some c := by
  intro list
  induction list with
  | nil =>
      intro res h
      simp only [rewriteOuterAggregateList] at h
      injection h with h'
      subst h'
      rfl
  | cons cc rest ih =>
      intro res h
      rw [rewriteOuterAggregateList] at h
      match hexpr : cc.expr with
      | .literal t v => rw [hexpr] at h; simp at h
      | .colRef c2 => rw [hexpr] at h; simp at h
      | .getStructField t input idx => rw [hexpr] at h; simp at h
      | .getProtoField t input f => rw [hexpr] at h; simp at h
      | .funcCall t fn args => rw [hexpr] at h; simp at h
      | .aggCall t fn args nh ob lim =>
          rw [hexpr] at h
          simp only [] at h
          match hlook : lookupInjected m cc.column with
          | none => rw [hlook] at h; simp at h
          | some target =>
              rw [hlook] at h
              simp only [Option.isNone_some, Bool.and_false, Bool.false_and,
                Bool.false_eq_true, if_false] at h
              match hrec : rewriteOuterAggregateList rest m tE uidId (some c)
                with
              | .ok (rest', uniqueOut) =>
                  rw [hrec] at h
                  injection h with h'
                  subst h'
                  exact ih (rest', uniqueOut) hrec
              | .error e => rw [hrec] at h; simp at h

/-- C8: with a thresholding feature enabled, the candidate unique-users
column produced by the outer aggregate list rewriter is exactly the first
aggregate column, in declaration order, whose original call matches the
canonical counts-distinct-privacy-units patterns; once one has been found,
a later matching column is never chosen. -/
theorem outerAggregateList_first_unique_users (m : List (RColumn × RColumn))
    (uidId : Int) :
    (∀ (list : List ComputedColumn)
        (res : List ComputedColumn × Option RColumn),
      rewriteOuterAggregateList list m true uidId none = .ok res →
      res.2 = (list.find? (isCountUniqueUsersEntry uidId)).map
        (fun cc => cc.column)) ∧
    (∀ (list : List ComputedColumn) (c : RColumn)
        (res : List ComputedColumn × Option RColumn),
      rewriteOuterAggregateList list m true uidId (some c) = .ok res →
      res.2 = some c) := by
  constructor
  · intro list
    induction list with
    | nil =>
        intro res h
        simp only [rewriteOuterAggregateList] at h
        injection h with h'
        subst h'
        rfl
    | cons cc rest ih =>
        intro res h
        rw [rewriteOuterAggregateList] at h
        match hexpr : cc.expr with
        | .literal t v => rw [hexpr] at h; simp at h
        | .colRef c2 => rw [hexpr] at h; simp at h
        | .getStructField t input idx => rw [hexpr] at h; simp at h
        | .getProtoField t input f => rw [hexpr] at h; simp at h
        | .funcCall t fn args => rw [hexpr] at h; simp at h
        | .aggCall t fn args nh ob lim =>
            rw [hexpr] at h
            simp only [] at h
            match hlook : lookupInjected m cc.column with
            | none => rw [hlook] at h; simp at h
            | some target =>
                rw [hlook] at h
                simp only [Option.isNone_none, Bool.and_true, Bool.true_and]
                  at h
                have hfind : isCountUniqueUsersEntry uidId cc =
                    isCountUniqueUsers fn args uidId := by
                  rw [isCountUniqueUsersEntry, hexpr]
                by_cases hmatch : isCountUniqueUsers fn args uidId
                · rw [if_pos (by simp [hmatch])] at h
                  match hrec : rewriteOuterAggregateList rest m true uidId
                      (some cc.column) with
                  | .ok (rest', uniqueOut) =>
                      rw [hrec] at h
                      injection h with h'
                      subst h'
                      have h2 := rewriteOuterAggregateList_keeps_found m true
                        uidId cc.column rest (rest', uniqueOut) hrec
                      rw [List.find?_cons_of_pos _ (by rw [hfind]; exact hmatch)]
                      simpa using h2
                  | .error e => rw [hrec] at h; simp at h
                · rw [if_neg (by simp [hmatch])] at h
                  match hrec : rewriteOuterAggregateList rest m true uidId
                      none with
                  | .ok (rest', uniqueOut) =>
                      rw [hrec] at h
                      injection h with h'
                      subst h'
                      rw [List.find?_cons_of_neg _ (by
                        rw [hfind]
                        simpa using hmatch)]
                      exact ih (rest', uniqueOut) hrec
                  | .error e => rw [hrec] at h; simp at h
  · intro list c res h
    exact rewriteOuterAggregateList_keeps_found m true uidId c list res h

/-- Witness for C8: with two entries both matching the unique-users-count
pattern, the first declared column is chosen. -/
theorem outerAggregateList_first_unique_users_witness :
    (rewriteOuterAggregateList
        [⟨⟨1, "$aggregate", "$agg1", .int64⟩,
            .aggCall .int64
              ⟨"$anon_count_star", kZetaSQLFunctionGroupName,
                .FN_ANON_COUNT_STAR, true, "$count_star", .int64, .int64, []⟩
              [some (.literal .int64 (.int64V 0)),
                some (.literal .int64 (.int64V 1))]
              .defaultNullHandling [] none⟩,
          ⟨⟨2, "$aggregate", "$agg2", .int64⟩,
            .aggCall .int64
              ⟨"$anon_count_star", kZetaSQLFunctionGroupName,
                .FN_ANON_COUNT_STAR, true, "$count_star", .int64, .int64, []⟩
              [some (.literal .int64 (.int64V 0)),
                some (.literal .int64 (.int64V 1))]
              .defaultNullHandling [] none⟩]
        [(⟨1, "$aggregate", "$agg1", .int64⟩,
            ⟨11, "$aggregate", "$agg1_partial", .int64⟩),
          (⟨2, "$aggregate", "$agg2", .int64⟩,
            ⟨12, "$aggregate", "$agg2_partial", .int64⟩)]
        true 7 none).map (fun r => r.2) =
      .ok (some ⟨1, "$aggregate", "$agg1", .int64⟩) := by
  obtain ⟨res, hres⟩ :
      ∃ res, rewriteOuterAggregateList
        [⟨⟨1, "$aggregate", "$agg1", .int64⟩,
            .aggCall .int64
              ⟨"$anon_count_star", kZetaSQLFunctionGroupName,
                .FN_ANON_COUNT_STAR, true, "$count_star", .int64, .int64, []⟩
              [some (.literal .int64 (.int64V 0)),
                some (.literal .int64 (.int64V 1))]
              .defaultNullHandling [] none⟩,
          ⟨⟨2, "$aggregate", "$agg2", .int64⟩,
            .aggCall .int64
              ⟨"$anon_count_star", kZetaSQLFunctionGroupName,
                .FN_ANON_COUNT_STAR, true, "$count_star", .int64, .int64, []⟩
              [some (.literal .int64 (.int64V 0)),
                some (.literal .int64 (.int64V 1))]
              .defaultNullHandling [] none⟩]
        [(⟨1, "$aggregate", "$agg1", .int64⟩,
            ⟨11, "$aggregate", "$agg1_partial", .int64⟩),
          (⟨2, "$aggregate", "$agg2", .int64⟩,
            ⟨12, "$aggregate", "$agg2_partial", .int64⟩)]
        true 7 none = .ok res := ⟨_, rfl⟩
  rw [hres]
  have h2 := (outerAggregateList_first_unique_users
    [(⟨1, "$aggregate", "$agg1", .int64⟩,
        ⟨11, "$aggregate", "$agg1_partial", .int64⟩),
      (⟨2, "$aggregate", "$agg2", .int64⟩,
        ⟨12, "$aggregate", "$agg2_partial", .int64⟩)] 7).1 _ res hres
  rw [show (Except.ok res).map
      (fun (r : List ComputedColumn × Option RColumn) => r.2) = .ok res.2 from
      rfl]
  rw [h2]
  rfl

/-- C9 counterexample: with the uid derived from a value-table field path
and two computed columns both matching that path, only the first is
replaced by a bare reference to the canonical uid column; the second still
matches the path (third conjunct) but remains a field access, contradicting
the claim that any matching entry is substituted. -/
theorem substituteUidComputedColumn_counterexample :
    (UidColumnState.substituteUidComputedColumn
        ⟨some ⟨6, "$project", "$uid", .int64⟩, "",
          some (.getStructField .int64
            (.colRef ⟨5, "T", "$value", .structT [("uid", .int64)]⟩) 0)⟩
        [⟨⟨7, "$groupby", "a", .int64⟩,
            .getStructField .int64
              (.colRef ⟨5, "T", "$value", .structT [("uid", .int64)]⟩) 0⟩,
          ⟨⟨8, "$groupby", "b", .int64⟩,
            .getStructField .int64
              (.colRef ⟨5, "T", "$value", .structT [("uid", .int64)]⟩) 0⟩]).1 =
      [⟨⟨7, "$groupby", "a", .int64⟩,
          .colRef ⟨6, "$project", "$uid", .int64⟩⟩,
        ⟨⟨8, "$groupby", "b", .int64⟩,
          .getStructField .int64
            (.colRef ⟨5, "T", "$value", .structT [("uid", .int64)]⟩) 0⟩] ∧
    isSameFieldPath
        (.getStructField .int64
          (.colRef ⟨5, "T", "$value", .structT [("uid", .int64)]⟩) 0)
        (.getStructField .int64
          (.colRef ⟨5, "T", "$value", .structT [("uid", .int64)]⟩) 0) = true :=
  ⟨rfl, rfl⟩

/-- C9 as amended: with the uid derived from a value-table field path, the
first matching computed column is replaced by a bare reference to the
canonical uid column, the state adopts that entry's output column and
clears the field-path state; entries before the first match, and every
non-column-reference entry processed after the path state is cleared
(in particular later duplicates of the field path), are left unchanged. -/
theorem substituteUidComputedColumn_amended (st : UidColumnState) (p : RExpr)
    (c0 : RColumn) (hvtu : st.valueTableUid = some p)
    (hcol : st.column = some c0) :
    (∀ list : List ComputedColumn,
      (∀ cc ∈ list, st.matchesPathExpression cc.expr = false) →
      st.substituteUidComputedColumn list = (list, st)) ∧
    (∀ (pre : List ComputedColumn) (cc : ComputedColumn)
        (post : List ComputedColumn),
      (∀ e ∈ pre, st.matchesPathExpression e.expr = false) →
      st.matchesPathExpression cc.expr = true →
      st.substituteUidComputedColumn (pre ++ cc :: post) =
        (pre ++ ⟨cc.column, makeColRef c0⟩ ::
          (UidColumnState.substituteUidComputedColumn.substLoop
            { st with column := some cc.column, valueTableUid := none }
            post).1,
        (UidColumnState.substituteUidComputedColumn.substLoop
          { st with column := some cc.column, valueTableUid := none }
          post).2)) ∧
    (∀ (st2 : UidColumnState) (list : List ComputedColumn) (i : Nat)
        (cc : ComputedColumn),
      st2.valueTableUid = none → list.get? i = some cc →
      (match cc.expr with | .colRef _ => False | _ => True) →
      (UidColumnState.substituteUidComputedColumn.substLoop st2 list).1.get? i =
        some cc) := by
  have loopNoMatch : ∀ (stx : UidColumnState) (list : List ComputedColumn),
      (∀ cc ∈ list, stx.matchesPathExpression cc.expr = false) →
      UidColumnState.substituteUidComputedColumn.substLoop stx list =
        (list, stx) := by
    intro stx list
    induction list generalizing stx with
    | nil => intro _; rfl
    | cons cc rest ih =>
        intro hnone
        have hcc : stx.matchesPathExpression cc.expr = false :=
          hnone cc (by simp)
        rw [UidColumnState.substituteUidComputedColumn.substLoop]
        rw [if_neg (by simp [hcc])]
        rw [ih stx (fun e he => hnone e (by simp [he]))]
  have loopFirstMatch : ∀ (pre : List ComputedColumn) (cc : ComputedColumn)
      (post : List ComputedColumn),
      (∀ e ∈ pre, st.matchesPathExpression e.expr = false) →
      st.matchesPathExpression cc.expr = true →
      UidColumnState.substituteUidComputedColumn.substLoop st
          (pre ++ cc :: post) =
        (pre ++ ⟨cc.column, makeColRef c0⟩ ::
          (UidColumnState.substituteUidComputedColumn.substLoop
            { st with column := some cc.column, valueTableUid := none }
            post).1,
        (UidColumnState.substituteUidComputedColumn.substLoop
          { st with column := some cc.column, valueTableUid := none }
          post).2) := by
    intro pre
    induction pre with
    | nil =>
        intro cc post _ hcc
        rw [List.nil_append,
          UidColumnState.substituteUidComputedColumn.substLoop]
        rw [if_pos hcc, hcol]
        rfl
    | cons e pre' ih =>
        intro cc post hpre hcc
        have he : st.matchesPathExpression e.expr = false := hpre e (by simp)
        rw [List.cons_append,
          UidColumnState.substituteUidComputedColumn.substLoop]
        rw [if_neg (by simp [he])]
        rw [ih cc post (fun x hx => hpre x (by simp [hx])) hcc]
        rfl
  refine ⟨?_, ?_, ?_⟩
  · intro list hnone
    rw [UidColumnState.substituteUidComputedColumn, hvtu]
    exact loopNoMatch st list hnone
  · intro pre cc post hpre hcc
    rw [UidColumnState.substituteUidComputedColumn, hvtu]
    exact loopFirstMatch pre cc post hpre hcc
  · intro st2 list
    induction list generalizing st2 with
    | nil => intro i cc _ hget _; simp at hget
    | cons hd rest ih =>
        intro i cc hvtu2 hget hshape
        rw [UidColumnState.substituteUidComputedColumn.substLoop]
        by_cases hm : st2.matchesPathExpression hd.expr = true
        · rw [if_pos hm]
          cases hcol2 : st2.column with
          | some canonical =>
              cases i with
              | zero =>
                  exfalso
                  have hhd : hd = cc := Option.some.inj hget
                  subst hhd
                  simp only [UidColumnState.matchesPathExpression] at hm
                  rw [hvtu2] at hm
                  cases hx : hd.expr with
                  | colRef c2 => rw [hx] at hshape; exact hshape
                  | literal t v => rw [hx] at hm; simp at hm
                  | getStructField t input idx => rw [hx] at hm; simp at hm
                  | getProtoField t input f => rw [hx] at hm; simp at hm
                  | funcCall t fn args => rw [hx] at hm; simp at hm
                  | aggCall t fn args nh ob lim => rw [hx] at hm; simp at hm
              | succ j =>
                  exact ih ⟨some hd.column, st2.aliasName, none⟩ j cc rfl hget
                    hshape
          | none =>
              cases i with
              | zero => exact hget
              | succ j => exact ih st2 j cc hvtu2 hget hshape
        · rw [if_neg hm]
          cases i with
          | zero => exact hget
          | succ j => exact ih st2 j cc hvtu2 hget hshape

/-- Witness for the amended C9 at the counterexample input. -/
theorem substituteUidComputedColumn_amended_witness :
    UidColumnState.substituteUidComputedColumn
        ⟨some ⟨6, "$project", "$uid", .int64⟩, "",
          some (.getStructField .int64
            (.colRef ⟨5, "T", "$value", .structT [("uid", .int64)]⟩) 0)⟩
        ([] ++ ⟨⟨7, "$groupby", "a", .int64⟩,
            .getStructField .int64
              (.colRef ⟨5, "T", "$value", .structT [("uid", .int64)]⟩) 0⟩ ::
          [⟨⟨8, "$groupby", "b", .int64⟩,
            .getStructField .int64
              (.colRef ⟨5, "T", "$value", .structT [("uid", .int64)]⟩) 0⟩]) =
      ([] ++ ⟨⟨7, "$groupby", "a", .int64⟩,
          makeColRef ⟨6, "$project", "$uid", .int64⟩⟩ ::
        (UidColumnState.substituteUidComputedColumn.substLoop
          ⟨some ⟨7, "$groupby", "a", .int64⟩, "", none⟩
          [⟨⟨8, "$groupby", "b", .int64⟩,
            .getStructField .int64
              (.colRef ⟨5, "T", "$value", .structT [("uid", .int64)]⟩) 0⟩]).1,
        (UidColumnState.substituteUidComputedColumn.substLoop
          ⟨some ⟨7, "$groupby", "a", .int64⟩, "", none⟩
          [⟨⟨8, "$groupby", "b", .int64⟩,
            .getStructField .int64
              (.colRef ⟨5, "T", "$value", .structT [("uid", .int64)]⟩) 0⟩]).2) :=
  (substituteUidComputedColumn_amended
    ⟨some ⟨6, "$project", "$uid", .int64⟩, "",
      some (.getStructField .int64
        (.colRef ⟨5, "T", "$value", .structT [("uid", .int64)]⟩) 0)⟩
    (.getStructField .int64
      (.colRef ⟨5, "T", "$value", .structT [("uid", .int64)]⟩) 0)
    ⟨6, "$project", "$uid", .int64⟩ rfl rfl).2.1
    [] ⟨⟨7, "$groupby", "a", .int64⟩,
      .getStructField .int64
        (.colRef ⟨5, "T", "$value", .structT [("uid", .int64)]⟩) 0⟩
    [⟨⟨8, "$groupby", "b", .int64⟩,
      .getStructField .int64
        (.colRef ⟨5, "T", "$value", .structT [("uid", .int64)]⟩) 0⟩]
    (by intro e he; simp at he) (by decide)

/-- The inner group-by rewriter replaces output columns but copies every
defining expression verbatim. -/
theorem rewriteInnerGroupByList_exprs :
    ∀ (gb : List ComputedColumn) (st : InnerRewriteState),
      ((rewriteInnerGroupByList gb st).1).map (fun cc => cc.expr) =
        gb.map (fun cc => cc.expr) := by
  intro gb
  induction gb with
  | nil => intro st; rfl
  | cons cc rest ih =>
      intro st
      rw [rewriteInnerGroupByList]
      simp only [rewriteInnerGroupByColumn, List.map]
      rw [ih]

/-- Counting entries by a predicate on their expressions factors through
the expression list. -/
theorem countP_expr_map (p : RExpr → Bool) :
    ∀ l : List ComputedColumn,
      l.countP (fun cc => p cc.expr) = (l.map (fun cc => cc.expr)).countP p := by
  intro l
  induction l with
  | nil => rfl
  | cons cc rest ih => simp [List.countP_cons, ih]

/-- C1 counterexample: rewriting a private aggregate whose original
group-by list already references the uid column yields a per-user
aggregate scan whose group-by list contains two entries that are bare
references to the resolved uid column, not exactly one. -/
theorem perUserGroupBy_counterexample :
    (rewritePerUserTransform 10
        (.tableScan [⟨1, "T", "uid", .int64⟩]
          ⟨"T", [⟨"uid", .int64⟩, ⟨"v", .int64⟩], some (.physical 0)⟩ [0] "")
        [⟨⟨2, "$groupby", "uid", .int64⟩, .colRef ⟨1, "T", "uid", .int64⟩⟩]
        [] none ⟨⟨10⟩, []⟩).map (fun rs =>
      ((match rs.1.inputScan with
        | .aggregateScan _ _ gb _ =>
            gb.countP (fun cc =>
              bareUidReference ⟨1, "T", "uid", .int64⟩ cc.expr)
        | _ => 0),
        rs.1.innerUidColumn)) =
      .ok (2, some ⟨1, "T", "uid", .int64⟩) := by
  rfl

/-- C1 as amended: when the per-user visitor resolved a uid column, the
emitted per-user aggregate scan's group-by list is the rewritten original
group-by list followed by the appended uid grouping entry; its last entry
is a bare reference to the resolved uid column bound to the fresh $uid
output column, and it contains exactly one more bare reference to the
resolved uid column than the original group-by list (hence exactly one
when the original list contains none). -/
theorem perUserGroupBy_amended (fuel : Nat) (inputScanNode : Scan)
    (groupByList aggregateList : List ComputedColumn) (sh : Shared)
    (r : RewritePerUserTransformResult) (sh' : Shared) (u : RColumn)
    (h : rewritePerUserTransform fuel inputScanNode groupByList aggregateList
      none sh = .ok (r, sh'))
    (hu : r.innerUidColumn = some u) :
    ∃ (innerGb aggList' : List ComputedColumn) (inputScan' : Scan),
      r.inputScan = .aggregateScan
        (aggList'.map (fun cc => cc.column) ++
          innerGb.map (fun cc => cc.column)) inputScan' innerGb aggList' ∧
      innerGb.map (fun cc => cc.expr) =
        groupByList.map (fun cc => cc.expr) ++ [.colRef u] ∧
      innerGb.getLast? = some ⟨r.uidColumn, .colRef u⟩ ∧
      innerGb.countP (fun cc => bareUidReference u cc.expr) =
        groupByList.countP (fun cc => bareUidReference u cc.expr) + 1 := by
  rw [rewritePerUserTransform] at h
  cases hpu : perUserRewrite fuel inputScanNode sh with
  | error e => rw [hpu] at h; simp [Bind.bind, Except.bind] at h
  | ok x =>
      obtain ⟨inputScan0, perUserUid, sh1⟩ := x
      rw [hpu] at h
      simp only [Bind.bind, Except.bind] at h
      cases hagg : rewriteInnerAggregateList aggregateList
          ⟨[], none, sh1.cf⟩ with
      | error e => rw [hagg] at h; simp at h
      | ok y =>
          obtain ⟨innerAggList, st1⟩ := y
          rw [hagg] at h
          simp only [] at h
          cases hgb : rewriteInnerGroupByList groupByList st1 with
          | mk innerGb0 st2 =>
              rw [hgb] at h
              simp only [] at h
              cases hcu : perUserUid.column with
              | none =>
                  rw [chooseUidColumn, hcu] at h
                  simp at h
              | some c =>
                  rw [chooseUidColumn, hcu] at h
                  simp only [Except.bind] at h
                  by_cases hgr : RType.supportsGrouping c.type
                  · rw [if_neg (by simp [makeColRef, RExpr.typeOf, hgr])] at h
                    injection h with h'
                    injection h' with hr hsh
                    subst hr
                    have hc : c = u := Option.some.inj hu
                    subst hc
                    have hexprs : innerGb0.map (fun cc => cc.expr) =
                        groupByList.map (fun cc => cc.expr) := by
                      have hx := rewriteInnerGroupByList_exprs groupByList st1
                      rw [hgb] at hx
                      exact hx
                    refine ⟨innerGb0 ++
                      [⟨(st2.cf.makeCol "$group_by" "$uid"
                          (RExpr.typeOf (makeColRef c))).1, makeColRef c⟩],
                      innerAggList,
                      (match st2.orderByColumn with
                        | some orderByColumn =>
                            Scan.projectScan
                              (inputScan0.columnList ++ [orderByColumn])
                              [⟨orderByColumn, .funcCall .double randFnInfo []⟩]
                              inputScan0
                        | none => inputScan0), ?_, ?_, ?_, ?_⟩
                    · rfl
                    · rw [List.map_append, hexprs]
                      rfl
                    · rw [List.getLast?_concat]
                      rfl
                    · rw [countP_expr_map, List.map_append, hexprs,
                        List.countP_append, countP_expr_map]
                      simp [bareUidReference, makeColRef]
                  · rw [if_pos (by simp [makeColRef, RExpr.typeOf, hgr])] at h
                    simp at h

/-- Witness for the amended C1: a concrete rewrite whose original group-by
list does not reference the uid yields exactly one bare uid reference in
the per-user group-by list. -/
theorem perUserGroupBy_amended_witness :
    ∃ (r : RewritePerUserTransformResult) (sh' : Shared),
      rewritePerUserTransform 10
        (.tableScan [⟨1, "T", "uid", .int64⟩]
          ⟨"T", [⟨"uid", .int64⟩, ⟨"v", .int64⟩], some (.physical 0)⟩ [0] "")
        [⟨⟨2, "$groupby", "k", .int64⟩, .colRef ⟨3, "T", "v", .int64⟩⟩] []
        none ⟨⟨10⟩, []⟩ = .ok (r, sh') ∧
      ∃ (innerGb aggList' : List ComputedColumn) (inputScan' : Scan),
        r.inputScan = .aggregateScan
          (aggList'.map (fun cc => cc.column) ++
            innerGb.map (fun cc => cc.column)) inputScan' innerGb aggList' ∧
        innerGb.countP (fun cc =>
          bareUidReference ⟨1, "T", "uid", .int64⟩ cc.expr) = 1 := by
  refine ⟨_, _, rfl, ?_⟩
  have h := perUserGroupBy_amended 10
    (.tableScan [⟨1, "T", "uid", .int64⟩]
      ⟨"T", [⟨"uid", .int64⟩, ⟨"v", .int64⟩], some (.physical 0)⟩ [0] "")
    [⟨⟨2, "$groupby", "k", .int64⟩, .colRef ⟨3, "T", "v", .int64⟩⟩] []
    ⟨⟨10⟩, []⟩ _ _ ⟨1, "T", "uid", .int64⟩ rfl rfl
  obtain ⟨innerGb, aggList', inputScan', h1, _, _, h4⟩ := h
  refine ⟨innerGb, aggList', inputScan', h1, ?_⟩
  rw [h4]
  rfl

/-- Pointwise preservation of the WITH entry list prefix composes. -/
theorem withEntriesPres_trans {a b c : List WithEntryState}
    (hab : ∀ i, i < a.length → b.get? i = a.get? i)
    (hbc : ∀ i, i < b.length → c.get? i = b.get? i) :
    ∀ i, i < a.length → c.get? i = a.get? i := by
  intro i hi
  have h1 := hab i hi
  have h2 : i < b.length := by
    have ha : a.get? i = some (a.get ⟨i, hi⟩) := List.get?_eq_get hi
    have hb : b.get? i = some (a.get ⟨i, hi⟩) := by rw [h1, ha]
    rcases List.get?_eq_some.mp hb with ⟨h, _⟩
    exact h
  rw [hbc i h2, h1]

/-- The orchestrator is the identity on trees without private aggregate
nodes, and only ever appends to or updates beyond the incoming WITH entry
list prefix. -/
theorem rewriteScan_noAnon_aux (fuel : Nat) (config : AnalyzerConfig) :
    ∀ (N : Nat) (s : Scan), sizeOf s ≤ N → ∀ sh : Shared,
      containsPrivateAggregate s = false →
      ∃ sh' : Shared, rewriteScan fuel config s sh = .ok (s, sh') ∧
        (∀ i, i < sh.withEntries.length →
          sh'.withEntries.get? i = sh.withEntries.get? i) := by
  intro N
  induction N with
  | zero =>
      intro s hsz
      exfalso
      cases s <;> simp at hsz
  | succ N ih =>
      intro s hsz sh hna
      cases s with
      | tableScan cols table idxs al => exact ⟨sh, rfl, fun i _ => rfl⟩
      | singleRowScan cols => exact ⟨sh, rfl, fun i _ => rfl⟩
      | withRefScan cols nm => exact ⟨sh, rfl, fun i _ => rfl⟩
      | projectScan cols exprs input =>
          have hszi : sizeOf input ≤ N := by
            simp only [Scan.projectScan.sizeOf_spec] at hsz; omega
          have hna' : containsPrivateAggregate input = false := by
            simpa [containsPrivateAggregate] using hna
          obtain ⟨sh', heq, hpres⟩ := ih input hszi sh hna'
          exact ⟨sh', by rw [rewriteScan, heq]; rfl, hpres⟩
      | filterScan cols input fe =>
          have hszi : sizeOf input ≤ N := by
            simp only [Scan.filterScan.sizeOf_spec] at hsz; omega
          have hna' : containsPrivateAggregate input = false := by
            simpa [containsPrivateAggregate] using hna
          obtain ⟨sh', heq, hpres⟩ := ih input hszi sh hna'
          exact ⟨sh', by rw [rewriteScan, heq]; rfl, hpres⟩
      | aggregateScan cols input gb agg =>
          have hszi : sizeOf input ≤ N := by
            simp only [Scan.aggregateScan.sizeOf_spec] at hsz; omega
          have hna' : containsPrivateAggregate input = false := by
            simpa [containsPrivateAggregate] using hna
          obtain ⟨sh', heq, hpres⟩ := ih input hszi sh hna'
          exact ⟨sh', by rw [rewriteScan, heq]; rfl, hpres⟩
      | orderByScan cols input =>
          have hszi : sizeOf input ≤ N := by
            simp only [Scan.orderByScan.sizeOf_spec] at hsz; omega
          have hna' : containsPrivateAggregate input = false := by
            simpa [containsPrivateAggregate] using hna
          obtain ⟨sh', heq, hpres⟩ := ih input hszi sh hna'
          exact ⟨sh', by rw [rewriteScan, heq]; rfl, hpres⟩
      | limitOffsetScan cols input =>
          have hszi : sizeOf input ≤ N := by
            simp only [Scan.limitOffsetScan.sizeOf_spec] at hsz; omega
          have hna' : containsPrivateAggregate input = false := by
            simpa [containsPrivateAggregate] using hna
          obtain ⟨sh', heq, hpres⟩ := ih input hszi sh hna'
          exact ⟨sh', by rw [rewriteScan, heq]; rfl, hpres⟩
      | arrayScan cols input =>
          have hszi : sizeOf input ≤ N := by
            simp only [Scan.arrayScan.sizeOf_spec] at hsz; omega
          have hna' : containsPrivateAggregate input = false := by
            simpa [containsPrivateAggregate] using hna
          obtain ⟨sh', heq, hpres⟩ := ih input hszi sh hna'
          exact ⟨sh', by rw [rewriteScan, heq]; rfl, hpres⟩
      | analyticScan cols input =>
          have hszi : sizeOf input ≤ N := by
            simp only [Scan.analyticScan.sizeOf_spec] at hsz; omega
          have hna' : containsPrivateAggregate input = false := by
            simpa [containsPrivateAggregate] using hna
          obtain ⟨sh', heq, hpres⟩ := ih input hszi sh hna'
          exact ⟨sh', by rw [rewriteScan, heq]; rfl, hpres⟩
      | sampleScan cols input method size unit rep weight pb =>
          have hszi : sizeOf input ≤ N := by
            simp only [Scan.sampleScan.sizeOf_spec] at hsz; omega
          have hna' : containsPrivateAggregate input = false := by
            simpa [containsPrivateAggregate] using hna
          obtain ⟨sh', heq, hpres⟩ := ih input hszi sh hna'
          exact ⟨sh', by rw [rewriteScan, heq]; rfl, hpres⟩
      | joinScan cols jt left right joinExpr =>
          have hszl : sizeOf left ≤ N := by
            simp only [Scan.joinScan.sizeOf_spec] at hsz; omega
          have hszr : sizeOf right ≤ N := by
            simp only [Scan.joinScan.sizeOf_spec] at hsz; omega
          have hna' : containsPrivateAggregate left = false ∧
              containsPrivateAggregate right = false := by
            simpa [containsPrivateAggregate] using hna
          obtain ⟨sh1, heq1, hp1⟩ := ih left hszl sh hna'.1
          obtain ⟨sh2, heq2, hp2⟩ := ih right hszr sh1 hna'.2
          refine ⟨sh2, ?_, withEntriesPres_trans hp1 hp2⟩
          rw [rewriteScan, heq1]
          simp only [bind, Except.bind]
          rw [heq2]
      | anonAggregateScan cols input gb agg kth opts =>
          exfalso
          simp [containsPrivateAggregate] at hna
      | dpAggregateScan cols input gb agg gst opts =>
          exfalso
          simp [containsPrivateAggregate] at hna
      | setOperationScan cols opType items =>
          have hszitems : sizeOf items ≤ N := by
            simp only [Scan.setOperationScan.sizeOf_spec] at hsz; omega
          have hszmem : ∀ p ∈ items, sizeOf p.2 ≤ N := by
            intro p hp
            have h1 := List.sizeOf_lt_of_mem hp
            obtain ⟨d, s2⟩ := p
            simp only [Prod.mk.sizeOf_spec] at h1
            simp only []
            omega
          have hlist : ∀ (its : List (SetOpItemData × Scan)),
              (∀ p ∈ its, sizeOf p.2 ≤ N) →
              containsPrivateAggregateItems its = false → ∀ shx : Shared,
              ∃ sh', rewriteScanSetOpItems fuel config its shx =
                  .ok (its, sh') ∧
                (∀ i, i < shx.withEntries.length →
                  sh'.withEntries.get? i = shx.withEntries.get? i) := by
            intro its
            induction its with
            | nil => intro _ _ shx; exact ⟨shx, rfl, fun i _ => rfl⟩
            | cons p rest ihl =>
                intro hszp hna2 shx
                obtain ⟨d, s2⟩ := p
                have hna3 : containsPrivateAggregate s2 = false ∧
                    containsPrivateAggregateItems rest = false := by
                  simpa [containsPrivateAggregateItems] using hna2
                obtain ⟨sh1, heq1, hq1⟩ :=
                  ih s2 (hszp (d, s2) (by simp)) shx hna3.1
                obtain ⟨sh2, heq2, hq2⟩ :=
                  ihl (fun q hq => hszp q (by simp [hq])) hna3.2 sh1
                refine ⟨sh2, ?_, withEntriesPres_trans hq1 hq2⟩
                rw [rewriteScanSetOpItems, heq1]
                simp only [bind, Except.bind]
                rw [heq2]
          have hna' : containsPrivateAggregateItems items = false := by
            simpa [containsPrivateAggregate] using hna
          obtain ⟨sh', heq, hpres⟩ := hlist items hszmem hna' sh
          exact ⟨sh', by rw [rewriteScan, heq]; rfl, hpres⟩
      | withScan cols entries query recursive =>
          have hszq : sizeOf query ≤ N := by
            simp only [Scan.withScan.sizeOf_spec] at hsz; omega
          have hszentries : sizeOf entries ≤ N := by
            simp only [Scan.withScan.sizeOf_spec] at hsz; omega
          have hszmem : ∀ p ∈ entries, sizeOf p.2 ≤ N := by
            intro p hp
            have h1 := List.sizeOf_lt_of_mem hp
            obtain ⟨d, s2⟩ := p
            simp only [Prod.mk.sizeOf_spec] at h1
            simp only []
            omega
          have hna' : containsPrivateAggregateEntries entries = false ∧
              containsPrivateAggregate query = false := by
            simpa [containsPrivateAggregate] using hna
          -- the registered entry list
          have hinit :
              ∀ i, i < entries.length →
                ((sh.withEntries ++ entries.map (fun e =>
                    ({ name := e.1.withQueryName, originalScan := e.2, rewritten := none, rewrittenUid := none } : WithEntryState))).get?
                  (sh.withEntries.length + i)).map WithEntryState.rewritten =
                some none := by
            intro i hi
            rw [List.get?_append_right (by omega)]
            rw [show sh.withEntries.length + i - sh.withEntries.length = i from
              by omega]
            rw [List.get?_map]
            rw [List.get?_eq_get (by simpa using hi)]
            simp
          obtain ⟨sh2, heqQ, hpQ⟩ := ih query hszq
            ⟨sh.cf, sh.withEntries ++ entries.map (fun e =>
              ({ name := e.1.withQueryName, originalScan := e.2, rewritten := none, rewrittenUid := none } : WithEntryState))⟩ hna'.2
          have hloop : ∀ (rest : List (WithEntryData × Scan)) (j : Nat)
              (shx : Shared),
              (∀ p ∈ rest, sizeOf p.2 ≤ N) →
              containsPrivateAggregateEntries rest = false →
              (∀ i, i < rest.length →
                (shx.withEntries.get? (sh.withEntries.length + j + i)).map
                  WithEntryState.rewritten = some none) →
              ∃ sh', rewriteScanWithEntries fuel config
                  sh.withEntries.length j rest shx = .ok (rest, sh') ∧
                (∀ i, i < sh.withEntries.length →
                  sh'.withEntries.get? i = shx.withEntries.get? i) := by
            intro rest
            induction rest with
            | nil => intro j shx _ _ _; exact ⟨shx, rfl, fun i _ => rfl⟩
            | cons p rest' ihe =>
                intro j shx hszp hna2 hslots
                obtain ⟨ed, escan⟩ := p
                have hna3 : containsPrivateAggregate escan = false ∧
                    containsPrivateAggregateEntries rest' = false := by
                  simpa [containsPrivateAggregateEntries] using hna2
                have hslot0 := hslots 0 (by simp)
                rw [Nat.add_zero] at hslot0
                cases hent : shx.withEntries.get?
                    (sh.withEntries.length + j) with
                | none => rw [hent] at hslot0; simp at hslot0
                | some entry =>
                    rw [hent] at hslot0
                    simp only [Option.map_some'] at hslot0
                    injection hslot0 with hrew
                    have hlt : sh.withEntries.length + j <
                        shx.withEntries.length := by
                      rcases List.get?_eq_some.mp hent with ⟨h, _⟩
                      exact h
                    obtain ⟨shy, heqE, hpE⟩ :=
                      ih escan (hszp (ed, escan) (by simp)) shx hna3.1
                    have hentY : shy.withEntries.get?
                        (sh.withEntries.length + j) = some entry := by
                      rw [hpE _ hlt, hent]
                    have hszp' : ∀ p ∈ rest', sizeOf p.2 ≤ N :=
                      fun q hq => hszp q (by simp [hq])
                    have hslots' : ∀ i, i < rest'.length →
                        (((shy.withEntries.set (sh.withEntries.length + j)
                            { entry with rewritten := some escan }).get?
                          (sh.withEntries.length + (j + 1) + i)).map
                          WithEntryState.rewritten) = some none := by
                      intro i hi
                      have ho := hslots (i + 1) (by simp only [List.length_cons]; omega)
                      have hidx : sh.withEntries.length + j + (i + 1) =
                          sh.withEntries.length + (j + 1) + i := by omega
                      rw [hidx] at ho
                      have hlt2 : sh.withEntries.length + (j + 1) + i <
                          shx.withEntries.length := by
                        cases hent2 : shx.withEntries.get?
                            (sh.withEntries.length + (j + 1) + i) with
                        | none => rw [hent2] at ho; simp at ho
                        | some e2 =>
                            rcases List.get?_eq_some.mp hent2 with ⟨h, _⟩
                            exact h
                      rw [List.get?_set_ne _ _ (by omega)]
                      rw [hpE _ hlt2]
                      exact ho
                    obtain ⟨shw, heqR, hpR⟩ := ihe (j + 1)
                      ⟨shy.cf, shy.withEntries.set (sh.withEntries.length + j)
                        { entry with rewritten := some escan }⟩
                      hszp' hna3.2 hslots'
                    refine ⟨shw, ?_, ?_⟩
                    · rw [rewriteScanWithEntries, hent]
                      rw [show (some entry).bind WithEntryState.rewritten =
                        entry.rewritten from rfl, hrew]
                      simp only [bind, Except.bind]
                      rw [heqE]
                      simp only [hentY]
                      rw [heqR]
                    · intro i hi
                      have h1 : (shy.withEntries.set
                          (sh.withEntries.length + j)
                          { entry with rewritten := some escan }).get? i =
                          shx.withEntries.get? i := by
                        rw [List.get?_set_ne _ _ (by omega)]
                        exact hpE i (by omega)
                      rw [hpR i hi, h1]
          have hinitslots : ∀ i, i < entries.length →
              (sh2.withEntries.get? (sh.withEntries.length + 0 + i)).map
                WithEntryState.rewritten = some none := by
            intro i hi
            rw [Nat.add_zero]
            have hlt : sh.withEntries.length + i <
                (sh.withEntries ++ entries.map (fun e =>
                  ({ name := e.1.withQueryName, originalScan := e.2, rewritten := none, rewrittenUid := none } : WithEntryState))).length := by
              simp
              omega
            rw [hpQ _ hlt]
            exact hinit i hi
          obtain ⟨shF, heqL, hpL⟩ :=
            hloop entries 0 sh2 hszmem hna'.1 hinitslots
          refine ⟨shF, ?_, ?_⟩
          · rw [rewriteScan]
            simp only []
            rw [heqQ]
            simp only [bind, Except.bind]
            rw [heqL]
          · intro i hi
            have h2 : sh2.withEntries.get? i =
                sh.withEntries.get? i := by
              have hlt : i < (sh.withEntries ++ entries.map (fun e =>
                  ({ name := e.1.withQueryName, originalScan := e.2, rewritten := none, rewrittenUid := none } : WithEntryState))).length := by
                simp
                omega
              rw [hpQ i hlt]
              exact List.get?_append (by omega)
            rw [hpL i hi, h2]

/-- C7: rewriting a tree that contains no private-aggregate node yields a
tree structurally equal to a deep copy of the input: every node kind other
than the private-aggregate kinds is copied through unchanged by the
top-level orchestrator. -/
theorem rewriteScan_noop (fuel : Nat) (config : AnalyzerConfig) (s : Scan)
    (cf : ColumnFactory) (hna : containsPrivateAggregate s = false) :
    ∃ sh' : Shared,
      rewriteForAnonymization fuel config s cf = .ok (s, sh') := by
  obtain ⟨sh', heq, _⟩ := rewriteScan_noAnon_aux fuel config (sizeOf s) s
    (Nat.le_refl _) { cf := cf, withEntries := [] } hna
  exact ⟨sh', heq⟩

/-- Witness for C7 at a concrete anonymization-free tree. -/
theorem rewriteScan_noop_witness :
    containsPrivateAggregate
        (.projectScan [⟨1, "T", "x", .int64⟩] []
          (.tableScan [⟨1, "T", "x", .int64⟩]
            ⟨"T", [⟨"x", .int64⟩], none⟩ [0] "T")) = false ∧
      ∃ sh' : Shared,
        rewriteForAnonymization 9 ⟨5, true, true, true⟩
          (.projectScan [⟨1, "T", "x", .int64⟩] []
            (.tableScan [⟨1, "T", "x", .int64⟩]
              ⟨"T", [⟨"x", .int64⟩], none⟩ [0] "T"))
          ⟨100⟩ = .ok
            ((.projectScan [⟨1, "T", "x", .int64⟩] []
              (.tableScan [⟨1, "T", "x", .int64⟩]
                ⟨"T", [⟨"x", .int64⟩], none⟩ [0] "T")), sh') :=
  ⟨rfl, rewriteScan_noop 9 ⟨5, true, true, true⟩
    (.projectScan [⟨1, "T", "x", .int64⟩] []
      (.tableScan [⟨1, "T", "x", .int64⟩]
        ⟨"T", [⟨"x", .int64⟩], none⟩ [0] "T")) ⟨100⟩ rfl⟩
